import Mathlib

/-!
Image processing service: cache-aside resolver and transform pipeline.

A shallow embedding of the Go sources

* `internal/store/images.go`, `internal/store/storage.go` (metadata store),
* `internal/store/pagination.go` (pagination parameters),
* `internal/store/cache/images.go` (cache store),
* `internal/store/supabase/images.go` (blob store),
* `internal/processor/transformer.go`, `internal/processor/processor.go`
  (transform pipeline),
* `cmd/app/middleware.go`, `cmd/app/images.go` (resolver and handlers).

External collaborators (Redis, Postgres, the bucket, `encoding/json`, the bimg
and gift engines) are modelled by an explicit `World` state, by fault fields
and by records of functions taken as parameters.  Every call to a collaborator
is appended to a log, so that statements about which calls are issued can be
made.
-/

set_option autoImplicit false

/-! ## Errors -/

/-- Go `error` values.  `redisNil` is `redis.Nil`, `ErrNotFound` and
`ErrBadQuery` are the sentinels of package `store`, `new msg` is the value of an
`errors.New(msg)` evaluated in this repository, and `external msg` is an error
produced by a collaborator (Redis, Postgres, the bucket, an engine, a codec). -/
inductive Error where
  | redisNil
  | ErrNotFound
  | ErrBadQuery
  | new (msg : String)
  | external (msg : String)
  deriving DecidableEq, Repr

/-- Byte buffers (`[]byte`); every element stands for one byte. -/
abbrev Bytes := List Nat

/-! ## `internal/store`: the metadata store -/

namespace store

/-- The struct `store.Image`. -/
structure Image where
  ID : Int
  URL : String
  Filename : String
  UserID : Int
  CreatedAt : String
  UpdatedAt : String
  deriving DecidableEq, Repr

/-- The struct `store.User`, reduced to the fields the image handlers read. -/
structure User where
  ID : Int
  Username : String
  deriving DecidableEq, Repr

end store

/-! ## `internal/store/cache`: the cache store -/

namespace cache

/-- One Redis string key with its expiry instant (nanoseconds). -/
structure Entry where
  key : String
  value : String
  expiresAt : Nat
  deriving DecidableEq, Repr

/-- The unit `time.Minute`, in nanoseconds as `time.Duration` counts. -/
def Minute : Nat := 60 * 1000000000

/-- The constant `ImageExpTime = 15 * time.Minute`. -/
def ImageExpTime : Nat := 15 * Minute

/-- The cache key `fmt.Sprintf("image-%d", imageID)`. -/
def cacheKey (imageID : Int) : String := "image-" ++ toString imageID

end cache

/-! ## Calls issued to the collaborators -/

/-- One call to an external collaborator, as recorded in the log. -/
inductive Call where
  | cacheGet (key : String)
  | cacheSetEx (key : String) (value : String) (ttl : Nat)
  | cacheDel (key : String)
  | dbGetByID (id : Int)
  | dbUpdate (image : store.Image)
  | dbGetUserImages (userID : Int) (limit : Int) (offset : Int)
  | bucketDownloadFile (filename : String)
  | bucketUpdateFile (filename : String) (buf : Bytes) (contentType : String)
  | bucketUploadFile (filename : String) (buf : Bytes) (contentType : String)
  | bucketCreateSignedUrl (filename : String) (duration : Nat)
  deriving DecidableEq, Repr

/-- Whether a call addresses the cache store. -/
def Call.isCache : Call → Bool
  | .cacheGet _ => true
  | .cacheSetEx _ _ _ => true
  | .cacheDel _ => true
  | _ => false

/-- Whether a call reads the metadata store. -/
def Call.isDbRead : Call → Bool
  | .dbGetByID _ => true
  | _ => false

/-- Whether a call writes the cache store. -/
def Call.isCacheWrite : Call → Bool
  | .cacheSetEx _ _ _ => true
  | _ => false

/-- Whether a call mutates the blob store or the metadata store. -/
def Call.isMutation : Call → Bool
  | .dbUpdate _ => true
  | .bucketUpdateFile _ _ _ => true
  | .bucketUploadFile _ _ _ => true
  | _ => false

/-- The state of the external collaborators.

* `now` is the clock, in nanoseconds;
* `redis` holds the live and expired keys of the cache store, and
  `redisGetFault`, `redisSetFault` make its `GET` / `SETEX` fail with the given
  error (a connection error, say);
* `rows` is the table `images`, `dbFault` makes a query fail;
* `blobs` is the bucket, `bucketFault` makes a bucket call fail;
* `log` lists the calls made so far, oldest first. -/
structure World where
  now : Nat
  redis : List cache.Entry
  redisGetFault : Option Error
  redisSetFault : Option Error
  rows : List store.Image
  dbFault : Option Error
  blobs : List (String × Bytes)
  bucketFault : Option Error
  log : List Call
  deriving Repr

/-- Appends a call to the log. -/
def World.record (w : World) (c : Call) : World :=
  { w with log := w.log ++ [c] }

/-- Lets `dt` nanoseconds pass. -/
def World.advance (w : World) (dt : Nat) : World :=
  { w with now := w.now + dt }

/-- The pure functions of the environment the embedded code calls:
`json.Marshal` and `json.Unmarshal` at type `store.Image`,
`time.Time.Format(time.RFC3339)` on a clock reading, and the signed URL the
bucket issues for a key and a duration. -/
structure Env where
  jsonMarshal : store.Image → Except Error String
  jsonUnmarshal : String → Except Error store.Image
  formatRFC3339 : Nat → String
  signedURL : String → Nat → String

/-! ### Redis client -/

namespace redis

/-- The reply `(data, err)` of `rdb.Get(ctx, key).Result()`: an injected fault
yields the empty string with that error, a live key yields its value, and a
missing or expired key yields the empty string with `redis.Nil`. -/
def Get (key : String) (w : World) : (String × Option Error) × World :=
  let w1 := w.record (.cacheGet key)
  match w.redisGetFault with
  | some err => (("", some err), w1)
  | none =>
    match w.redis.find? (fun e => e.key == key && decide (w.now < e.expiresAt)) with
    | some e => ((e.value, none), w1)
    | none => (("", some Error.redisNil), w1)

/-- The result of `rdb.SetEx(ctx, key, value, ttl).Err()`: an injected fault
leaves the store as it is, otherwise the key is replaced and expires `ttl`
after now. -/
def SetEx (key : String) (value : String) (ttl : Nat) (w : World) : Option Error × World :=
  let w1 := w.record (.cacheSetEx key value ttl)
  match w.redisSetFault with
  | some err => (some err, w1)
  | none =>
    (none, { w1 with redis :=
      { key := key, value := value, expiresAt := w.now + ttl } ::
        w.redis.filter (fun e => e.key != key) })

/-- The call `rdb.Del(ctx, key)`, its result ignored. -/
def Del (key : String) (w : World) : World :=
  { w.record (.cacheDel key) with redis := w.redis.filter (fun e => e.key != key) }

end redis

namespace cache

/-- The method `ImageStore.Get` of package `cache`.  After the Redis reply
`(data, err)` the `switch` takes its first case when `err == redis.Nil` or
`data == ""` and does nothing there; its second case returns `err`.  Then a
non-empty `data` is unmarshalled, and an empty one gives `(nil, nil)`, here
`ok none`. -/
def ImageStore.Get (L : Env) (imageID : Int) (w : World) :
    Except Error (Option store.Image) × World :=
  let r := redis.Get (cacheKey imageID) w
  let data := r.1.1
  let err := r.1.2
  let rest : Except Error (Option store.Image) :=
    if data ≠ "" then
      match L.jsonUnmarshal data with
      | .error e => .error e
      | .ok image => .ok (some image)
    else .ok none
  if err = some Error.redisNil ∨ data = "" then (rest, r.2)
  else
    match err with
    | some e => (.error e, r.2)
    | none => (rest, r.2)

/-- The method `ImageStore.Set` of package `cache`: a marshalling error makes it
return `nil` without a write. -/
def ImageStore.Set (L : Env) (image : store.Image) (w : World) : Option Error × World :=
  match L.jsonMarshal image with
  | .error _ => (none, w)
  | .ok json => redis.SetEx (cacheKey image.ID) json ImageExpTime w

/-- The method `ImageStore.Delete` of package `cache`. -/
def ImageStore.Delete (imageID : Int) (w : World) : World :=
  redis.Del (cacheKey imageID) w

end cache

namespace store

/-- The method `ImageStore.GetByID`: a failed query returns its error, no row
returns `ErrNotFound`. -/
def ImageStore.GetByID (id : Int) (w : World) : Except Error Image × World :=
  let w1 := w.record (.dbGetByID id)
  match w.dbFault with
  | some err => (.error err, w1)
  | none =>
    match w.rows.find? (fun i => i.ID == id) with
    | none => (.error Error.ErrNotFound, w1)
    | some image => (.ok image, w1)

/-- The method `ImageStore.Update`: sets `url`, `filename` and `updated_at` of
the row with the image id; no affected row returns `ErrNotFound`. -/
def ImageStore.Update (image : Image) (w : World) : Option Error × World :=
  let w1 := w.record (.dbUpdate image)
  match w.dbFault with
  | some err => (some err, w1)
  | none =>
    if w.rows.any (fun i => i.ID == image.ID) then
      (none, { w1 with rows := w.rows.map (fun i =>
        if i.ID == image.ID then
          { i with URL := image.URL, Filename := image.Filename, UpdatedAt := image.UpdatedAt }
        else i) })
    else (some Error.ErrNotFound, w1)

end store

/-! ## `internal/store/pagination.go`: the pagination parameters -/

namespace url

/-- The value `r.URL.Query()` of type `url.Values`, kept as the key and value
pairs of the query string in their order; the map is read through `len` and
`Get` only. -/
abbrev Values := List (String × String)

/-- The expression `len(q)`: the number of keys of the map, which is the number
of distinct keys among the pairs. -/
def Values.len (q : Values) : Nat := (q.map Prod.fst).dedup.length

/-- The method `Values.Get`: the first value of the key, or the empty string
when the key is absent. -/
def Values.Get (q : Values) (key : String) : String :=
  match q.find? (fun p => p.1 == key) with
  | some p => p.2
  | none => ""

end url

namespace strconv

/-- The value of a list of decimal digits, or `none` when a character is not
a digit. -/
def digits : List Char → Nat → Option Nat
  | [], acc => some acc
  | c :: cs, acc =>
    if '0' ≤ c ∧ c ≤ '9' then digits cs (acc * 10 + (c.toNat - '0'.toNat)) else none

/-- The function `strconv.Atoi`, `none` for its error: an optional sign, then
at least one digit and digits only, and a value in the range of `int` (64
bits). -/
def Atoi (s : String) : Option Int :=
  let signed : Bool × List Char :=
    match s.data with
    | '-' :: t => (true, t)
    | '+' :: t => (false, t)
    | cs => (false, cs)
  if signed.2 = [] then none
  else
    match digits signed.2 0 with
    | none => none
    | some n =>
      let v : Int := if signed.1 then -(n : Int) else (n : Int)
      if -9223372036854775808 ≤ v ∧ v ≤ 9223372036854775807 then some v else none

end strconv

/-- The value of an integer expression in Go's `int`: two's complement on 64
bits. -/
def wrapInt64 (n : Int) : Int :=
  (n + 9223372036854775808) % 18446744073709551616 - 9223372036854775808

namespace store

/-- The struct `PaginationParams`. -/
structure PaginationParams where
  PageID : Int
  Limit : Int
  deriving DecidableEq, Repr

/-- The method `PaginationParams.Parse` on the query `r.URL.Query()`; the pair
is the Go result `(PaginationParams, error)`. -/
def PaginationParams.Parse (pp : PaginationParams) (q : url.Values) :
    PaginationParams × Option Error :=
  if q.len ≠ 2 then (pp, some Error.ErrBadQuery)
  else
    let limit := q.Get "limit"
    let afterLimit : Option PaginationParams :=
      if limit ≠ "" then
        match strconv.Atoi limit with
        | none => none
        | some l => some { pp with Limit := l }
      else some pp
    match afterLimit with
    | none => (pp, none)
    | some pp1 =>
      let page := q.Get "page"
      if page ≠ "" then
        match strconv.Atoi page with
        | none => (pp1, none)
        | some p => ({ pp1 with PageID := p }, none)
      else (pp1, none)

/-- The call `Validate.Struct(pp)` with the tags `validate:"gte=1"` of both
fields. -/
def PaginationParams.validate (pp : PaginationParams) : Option Error :=
  if 1 ≤ pp.PageID ∧ 1 ≤ pp.Limit then none
  else some (Error.external "validation failed on the gte tag")

/-- The expression `offset := (pp.PageID - 1) * pp.Limit` of `GetUserImages`,
in the arithmetic of `int`. -/
def offset (pp : PaginationParams) : Int :=
  wrapInt64 (wrapInt64 (pp.PageID - 1) * pp.Limit)

/-- The method `ImageStore.GetUserImages`: the rows of the user, kept in the
order of `created_at`, from `offset` on and at most `limit` of them; the
database rejects a negative `LIMIT` or `OFFSET`. -/
def ImageStore.GetUserImages (userID : Int) (pp : PaginationParams) (w : World) :
    Except Error (List Image) × World :=
  let w1 := w.record (.dbGetUserImages userID pp.Limit (offset pp))
  match w.dbFault with
  | some err => (.error err, w1)
  | none =>
    if pp.Limit < 0 ∨ offset pp < 0 then
      (.error (Error.external "LIMIT and OFFSET must not be negative"), w1)
    else
      (.ok (((w.rows.filter (fun i => i.UserID == userID)).drop (offset pp).toNat).take
        pp.Limit.toNat), w1)

end store

/-! ## `internal/store/supabase`: the blob store -/

/-- The outcome of a Go call that either returns or panics. -/
inductive Outcome (α : Type) where
  | returned (a : α)
  | panicked (msg : String)
  deriving DecidableEq, Repr

namespace supabase

/-- The constant `urlDuration = 6 * 3600`, in seconds. -/
def urlDuration : Nat := 6 * 3600

/-- The map `ImageMIMETypes`. -/
def ImageMIMETypes (imgType : String) : Option String :=
  if imgType = "jpeg" then some "image/jpeg"
  else if imgType = "png" then some "image/png"
  else if imgType = "webp" then some "image/webp"
  else if imgType = "tiff" then some "image/tiff"
  else none

/-- The pieces of a character list between dots, as `strings.Split(s, ".")`
cuts them: a list without a dot gives one piece. -/
def splitDot : List Char → List (List Char)
  | [] => [[]]
  | c :: cs =>
    match splitDot cs with
    | [] => [[]]
    | seg :: segs => if c = '.' then [] :: seg :: segs else (c :: seg) :: segs

/-- The expression `strings.Split(filename, ".")`. -/
def Split (filename : String) : List String :=
  (splitDot filename.data).map String.mk

/-- The bucket call `sc.DownloadFile(bucket_id, filename)`. -/
def DownloadFile (filename : String) (w : World) : Except Error Bytes × World :=
  let w1 := w.record (.bucketDownloadFile filename)
  match w.bucketFault with
  | some err => (.error err, w1)
  | none =>
    match w.blobs.find? (fun b => b.1 == filename) with
    | some b => (.ok b.2, w1)
    | none => (.error (Error.external "object not found"), w1)

/-- The bucket call `sc.UpdateFile(bucket_id, filename, data, options)`: the
object under the key is replaced. -/
def UpdateFile (filename : String) (buf : Bytes) (contentType : String) (w : World) :
    Option Error × World :=
  let w1 := w.record (.bucketUpdateFile filename buf contentType)
  match w.bucketFault with
  | some err => (some err, w1)
  | none =>
    (none, { w1 with blobs := (filename, buf) :: w.blobs.filter (fun b => b.1 != filename) })

/-- The bucket call `sc.UploadFile(bucket_id, filename, data, options)`. -/
def UploadFile (filename : String) (buf : Bytes) (contentType : String) (w : World) :
    Option Error × World :=
  let w1 := w.record (.bucketUploadFile filename buf contentType)
  match w.bucketFault with
  | some err => (some err, w1)
  | none =>
    (none, { w1 with blobs := (filename, buf) :: w.blobs.filter (fun b => b.1 != filename) })

/-- The bucket call `sc.CreateSignedUrl(bucket_id, filename, duration)`. -/
def CreateSignedUrl (L : Env) (filename : String) (duration : Nat) (w : World) :
    Except Error String × World :=
  let w1 := w.record (.bucketCreateSignedUrl filename duration)
  match w.bucketFault with
  | some err => (.error err, w1)
  | none => (.ok (L.signedURL filename duration), w1)

/-- The method `ImageBucket.UploadImage`.  The index expression
`strings.Split(filename, ".")[1]` panics when the split has one piece. -/
def ImageBucket.UploadImage (L : Env) (filename : String) (buf : Bytes) (w : World) :
    Outcome (Except Error (String × String)) × World :=
  match (Split filename).get? 1 with
  | none => (.panicked "index out of range [1] with length 1", w)
  | some ext =>
    let imgType := if ext = "jpg" then "jpeg" else ext
    let imgType := if imgType = "tif" then "tiff" else imgType
    let newFilename := "uploaded_" ++ filename
    match ImageMIMETypes imgType with
    | none => (.returned (.error (Error.new "unsoported/bad image format")), w)
    | some contentType =>
      match UploadFile newFilename buf contentType w with
      | (some err, w1) => (.returned (.error err), w1)
      | (none, w1) =>
        match CreateSignedUrl L newFilename urlDuration w1 with
        | (.error err, w2) => (.returned (.error err), w2)
        | (.ok url, w2) => (.returned (.ok (newFilename, url)), w2)

/-- The method `ImageBucket.UpdateImage`, with the same index expression. -/
def ImageBucket.UpdateImage (filename : String) (buf : Bytes) (w : World) :
    Outcome (Option Error) × World :=
  match (Split filename).get? 1 with
  | none => (.panicked "index out of range [1] with length 1", w)
  | some ext =>
    let imgType := if ext = "jpg" then "jpeg" else ext
    let imgType := if imgType = "tif" then "tiff" else imgType
    match ImageMIMETypes imgType with
    | none => (.returned (some (Error.new "unsoported/bad image format")), w)
    | some contentType =>
      match UpdateFile filename buf contentType w with
      | (some err, w1) => (.returned (some err), w1)
      | (none, w1) => (.returned none, w1)

/-- The method `ImageBucket.StreamImage`. -/
def ImageBucket.StreamImage (filename : String) (w : World) : Except Error Bytes × World :=
  match DownloadFile filename w with
  | (.error err, w1) => (.error err, w1)
  | (.ok buf, w1) => (.ok buf, w1)

end supabase

/-! ## The image engines -/

namespace bimg

/-- The enumeration `bimg.ImageType`, reduced to its zero value and the values
the repository names. -/
inductive ImageType where
  | UNKNOWN
  | JPEG
  | WEBP
  | PNG
  | TIFF
  deriving DecidableEq, Repr

/-- The enumeration `bimg.Gravity`; `GravityCentre` is its zero value. -/
inductive Gravity where
  | GravityCentre
  | GravityNorth
  | GravityEast
  | GravitySouth
  | GravityWest
  | GravitySmart
  deriving DecidableEq, Repr

/-- The struct `bimg.Options`, reduced to the fields the repository sets; a
field left out of a literal has its zero value.  In the engine `Flip` is the
vertical flip (a mirror about the X axis) and `Flop` is the horizontal one (a
mirror about the Y axis). -/
structure Options where
  Width : Int := 0
  Height : Int := 0
  Rotate : Int := 0
  Flop : Bool := false
  Flip : Bool := false
  Quality : Int := 0
  Gravity : Gravity := Gravity.GravityCentre
  deriving DecidableEq, Repr

end bimg

namespace gift

/-- The filters of package `gift` the repository adds to a chain; `float32`
arguments are read as rational numbers. -/
inductive Filter where
  | Grayscale
  | Sepia (percentage : ℚ)
  | Gamma (gamma : ℚ)
  | GaussianBlur (sigma : ℚ)
  deriving DecidableEq, Repr

end gift

/-- A decoded pixel raster (`image.Image`). -/
structure Raster where
  width : Nat
  height : Nat
  pix : List Nat
  deriving DecidableEq, Repr

/-- The two engines as records of functions: the calls of package `bimg` on an
encoded buffer, `image.Decode`, the drawing of a `gift` chain onto a fresh
`NRGBA` raster, and the four encoders (`webpEncode` takes the quality given to
`encoder.NewLossyEncoderOptions` and fails when the options cannot be made). -/
structure Engine where
  Process : Bytes → bimg.Options → Except Error Bytes
  Convert : Bytes → bimg.ImageType → Except Error Bytes
  DetermineImageTypeName : Bytes → String
  Decode : Bytes → Except Error Raster
  Draw : List gift.Filter → Raster → Raster
  jpegEncode : Raster → Except Error Bytes
  pngEncode : Raster → Except Error Bytes
  webpEncode : Raster → Int → Except Error Bytes
  tiffEncode : Raster → Except Error Bytes

/-- The three places of `ImageTransformer.Process` that call
`bimg.NewImage(buf).Process(options)`. -/
inductive Site where
  | orientation
  | resize
  | crop
  deriving DecidableEq, Repr

/-- One call to an engine, as recorded in the trace of the pipeline; a call of
`bimg.Image.Process` carries the place that makes it. -/
inductive EngineCall where
  | Process (site : Site) (buf : Bytes) (o : bimg.Options)
  | Convert (buf : Bytes) (t : bimg.ImageType)
  | Decode (buf : Bytes)
  | Draw (filters : List gift.Filter) (src : Raster)
  | Encode (codec : bimg.ImageType) (dst : Raster)
  deriving DecidableEq, Repr

/-- Whether an engine call belongs to the raster engine. -/
def EngineCall.isRaster : EngineCall → Bool
  | .Decode _ => true
  | .Draw _ _ => true
  | .Encode _ _ => true
  | _ => false

/-- The raster encoders write what the vector engine detects: a buffer that
`jpeg.Encode`, `png.Encode`, `webp.Encode` (lossy, quality 75) or `tiff.Encode`
returns is detected as `jpeg`, `png`, `webp` or `tiff`. -/
def Engine.EncodersFaithful (E : Engine) : Prop :=
  (∀ dst b, E.jpegEncode dst = .ok b → E.DetermineImageTypeName b = "jpeg") ∧
  (∀ dst b, E.pngEncode dst = .ok b → E.DetermineImageTypeName b = "png") ∧
  (∀ dst b, E.webpEncode dst 75 = .ok b → E.DetermineImageTypeName b = "webp") ∧
  (∀ dst b, E.tiffEncode dst = .ok b → E.DetermineImageTypeName b = "tiff")

/-- A computation of the pipeline: its result, and the engine calls it made,
oldest first. -/
def Eng (α : Type) : Type := Except Error α × List EngineCall

namespace Eng

/-- Returns a value without calling an engine. -/
def ret {α : Type} (a : α) : Eng α := (.ok a, [])

/-- Returns early with an error. -/
def fail {α : Type} (e : Error) : Eng α := (.error e, [])

/-- Makes one engine call with the given result. -/
def call {α : Type} (c : EngineCall) (r : Except Error α) : Eng α := (r, [c])

/-- Sequencing: an error ends the computation, and the traces are joined. -/
def andThen {α β : Type} (m : Eng α) (k : α → Eng β) : Eng β :=
  match m.1 with
  | .error e => (.error e, m.2)
  | .ok a => ((k a).1, m.2 ++ (k a).2)

end Eng

/-! ## `internal/processor`: the transform pipeline -/

namespace processor

/-- The anonymous struct of `Transformer.Resize` and `Transformer.Crop`. -/
structure Size where
  Width : Int := 0
  Height : Int := 0
  deriving DecidableEq, Repr

/-- The anonymous struct of `Transformer.Filters`. -/
structure Filters where
  Grayscale : Bool := false
  Sepia : Bool := false
  Gamma : ℚ := 0
  GaussianBlur : ℚ := 0
  deriving DecidableEq, Repr

/-- The struct `Transformer`. -/
structure Transformer where
  Resize : Size := {}
  Crop : Size := {}
  Mirror : Bool := false
  Flip : Bool := false
  Rotate : Int := 0
  Quality : Int := 0
  Format : String := ""
  Filters : Filters := {}
  deriving DecidableEq, Repr

/-- The struct `ImageTransformer`. -/
structure ImageTransformer where
  buf : Bytes
  options : Transformer
  deriving DecidableEq, Repr

/-- The map `ImageTypes` of `processor.go`. -/
def ImageTypes (name : String) : Option bimg.ImageType :=
  if name = "jpeg" then some bimg.ImageType.JPEG
  else if name = "png" then some bimg.ImageType.PNG
  else if name = "webp" then some bimg.ImageType.WEBP
  else if name = "tiff" then some bimg.ImageType.TIFF
  else none

/-- The function `encodeImage`. -/
def encodeImage (E : Engine) (dst : Raster) (format : String) : Eng Bytes :=
  if format = "jpeg" ∨ format = "jpg" then
    Eng.call (.Encode bimg.ImageType.JPEG dst) (E.jpegEncode dst)
  else if format = "png" then
    Eng.call (.Encode bimg.ImageType.PNG dst) (E.pngEncode dst)
  else if format = "webp" then
    Eng.call (.Encode bimg.ImageType.WEBP dst) (E.webpEncode dst 75)
  else if format = "tiff" ∨ format = "tif" then
    Eng.call (.Encode bimg.ImageType.TIFF dst) (E.tiffEncode dst)
  else
    Eng.fail (Error.new "unsuported/bad image format")

/-- The chain `g` that `addFilters` builds from the requested filters. -/
def filterChain (filters : Filters) : List gift.Filter :=
  (if filters.Grayscale then [gift.Filter.Grayscale] else []) ++
  (if filters.Sepia then [gift.Filter.Sepia 50] else []) ++
  (if filters.Gamma > 0 then [gift.Filter.Gamma filters.Gamma] else []) ++
  (if filters.GaussianBlur > 0 then [gift.Filter.GaussianBlur filters.GaussianBlur] else [])

/-- The function `addFilters`: the buffer is decoded, the chain is drawn and
the raster is encoded in the detected format of the buffer. -/
def addFilters (E : Engine) (buf : Bytes) (options : Transformer) : Eng Bytes :=
  let imageType := E.DetermineImageTypeName buf
  let g := filterChain options.Filters
  Eng.andThen (Eng.call (.Decode buf) (E.Decode buf)) fun src =>
  Eng.andThen (Eng.call (.Draw g src) (.ok (E.Draw g src))) fun dst =>
  encodeImage E dst imageType

/-- The options `bimgOpts` of the first engine call of `Process`; the source
writes `Flop: it.options.Flip` and `Flip: it.options.Mirror`. -/
def bimgOpts (options : Transformer) : bimg.Options :=
  let imgQuality := if options.Quality ≤ 0 then 75 else options.Quality
  { Rotate := options.Rotate
    Flop := options.Flip
    Flip := options.Mirror
    Quality := imgQuality }

/-- The name `newType` of `Process`: the requested format with `jpg` and `tif`
replaced. -/
def newType (options : Transformer) : String :=
  let t := if options.Format = "jpg" then "jpeg" else options.Format
  if t = "tif" then "tiff" else t

/-- Lines 55 to 65 of `transformer.go`, the first engine call of `Process`:
rotation, flip, mirror and quality in one call of `bimg.Image.Process`. -/
def orientationStage (E : Engine) (it : ImageTransformer) : Eng Bytes :=
  Eng.call (.Process .orientation it.buf (bimgOpts it.options))
    (E.Process it.buf (bimgOpts it.options))

/-- Lines 67 to 80, `apply resize if neccessary`. -/
def resizeStage (E : Engine) (options : Transformer) (newBuf : Bytes) : Eng Bytes :=
  let rWidth := options.Resize.Width
  let rHeight := options.Resize.Height
  if rWidth > 0 ∧ rHeight > 0 then
    Eng.call (.Process .resize newBuf { Width := rWidth, Height := rHeight })
      (E.Process newBuf { Width := rWidth, Height := rHeight })
  else Eng.ret newBuf

/-- Lines 82 to 97, `apply crop if neccessary`. -/
def cropStage (E : Engine) (options : Transformer) (newBuf : Bytes) : Eng Bytes :=
  let cWidth := options.Crop.Width
  let cHeight := options.Crop.Height
  if cWidth > 0 ∧ cHeight > 0 then
    Eng.call
      (.Process .crop newBuf
        { Width := cWidth, Height := cHeight, Gravity := bimg.Gravity.GravityCentre })
      (E.Process newBuf
        { Width := cWidth, Height := cHeight, Gravity := bimg.Gravity.GravityCentre })
  else Eng.ret newBuf

/-- Lines 99 to 123, `apply conversion if neccessary`: the lookup in
`ImageTypes`, whose missing key gives the zero value and `ok = false`, the
early return for an unknown non-empty name, and for a non-empty name the
conversion with the check of the detected format. -/
def conversionStage (E : Engine) (options : Transformer) (newBuf : Bytes) : Eng Bytes :=
  let newType := newType options
  let bimgImgType := (ImageTypes newType).getD bimg.ImageType.UNKNOWN
  let ok := (ImageTypes newType).isSome
  if ¬ ok ∧ newType ≠ "" then
    Eng.fail (Error.new "unsorported image format")
  else if newType ≠ "" then
    Eng.andThen (Eng.call (.Convert newBuf bimgImgType) (E.Convert newBuf bimgImgType))
      (fun converted =>
        if E.DetermineImageTypeName converted ≠ newType then
          Eng.fail (Error.new "unknown conversion error")
        else Eng.ret converted)
  else Eng.ret newBuf

/-- The method `ImageTransformer.Process`: its five blocks in order, each on
the buffer the block before it returned; lines 125 to 132 call `addFilters`
without a condition. -/
def ImageTransformer.Process (E : Engine) (it : ImageTransformer) : Eng Bytes :=
  Eng.andThen (orientationStage E it) fun newBuf =>
  Eng.andThen (resizeStage E it.options newBuf) fun newBuf =>
  Eng.andThen (cropStage E it.options newBuf) fun newBuf =>
  Eng.andThen (conversionStage E it.options newBuf) fun newBuf =>
  addFilters E newBuf it.options

/-- The method `ImageTransformer.Flip`, commented `Reverse across horizontal
axis` in the source: `bimg.NewImage(it.buf).Flop()`, which is the engine call
with the option `Flop` alone. -/
def ImageTransformer.Flip (E : Engine) (it : ImageTransformer) : Except Error Bytes :=
  E.Process it.buf { Flop := true }

/-- The method `ImageTransformer.Mirror`, commented `Reverse across vertical
axis` in the source: `bimg.NewImage(it.buf).Flip()`, which is the engine call
with the option `Flip` alone. -/
def ImageTransformer.Mirror (E : Engine) (it : ImageTransformer) : Except Error Bytes :=
  E.Process it.buf { Flip := true }

end processor

/-! ## `cmd/app`: resolver and handlers -/

/-- The struct `ResizeParams`, also `CropParams`. -/
structure ResizeParams where
  Width : Int := 0
  Height : Int := 0
  deriving DecidableEq, Repr

/-- The struct `Transformations`, the body of a transform request.  The source
comments the field `Mirror` with `Mirror image about Y-axis` and the field
`Flip` with `Mirror image about X-axis`. -/
structure Transformations where
  Resize : ResizeParams := {}
  Crop : ResizeParams := {}
  Mirror : Bool := false
  Flip : Bool := false
  Rotate : Int := 0
  Quality : Int := 0
  Format : String := ""
  Filters : processor.Filters := {}
  deriving DecidableEq, Repr

/-- The struct `application`: the flag `config.redisCfg.enabled`, the functions
of the environment and the engines behind `processor.NewImageProcessor`. -/
structure application where
  redisEnabled : Bool
  env : Env
  engine : Engine

/-- What a handler reads from a request: the result of
`strconv.ParseInt(chi.URLParam(r, "imageID"), 10, 64)`, the user that
`getUserFromContext` returns, the result of `readJSON` into a `RequestPayload`,
the result of `Validate.Struct` on the payload, and the result of writing the
JSON response; and the query `r.URL.Query()`. -/
structure Request where
  imageID : Except Error Int
  user : store.User
  payload : Except Error Transformations
  validateErr : Option Error
  writeErr : Option Error
  query : url.Values := []

/-- One call to a responder of the application. -/
inductive Response where
  | badRequestResponse (err : Error)
  | notFoundResponse (err : Error)
  | internalServerError (err : Error)
  | forbiddenResponse (err : Option Error)
  | jsonResponse (status : Nat) (image : store.Image)
  | jsonImages (status : Nat) (images : List store.Image)
  | recovered (msg : String)
  deriving DecidableEq, Repr

namespace application

/-- The method `application.getImage`, the cache-aside resolver. -/
def getImage (app : application) (imageID : Int) (w : World) :
    Except Error store.Image × World :=
  if ¬ app.redisEnabled then
    store.ImageStore.GetByID imageID w
  else
    match cache.ImageStore.Get app.env imageID w with
    | (.error err, w1) => (.error err, w1)
    | (.ok (some image), w1) => (.ok image, w1)
    | (.ok none, w1) =>
      match store.ImageStore.GetByID imageID w1 with
      | (.error err, w2) => (.error err, w2)
      | (.ok image, w2) =>
        match cache.ImageStore.Set app.env image w2 with
        | (some err, w3) => (.error err, w3)
        | (none, w3) => (.ok image, w3)

/-- The conversion of the payload into `processor.Transformer` in
`transformImageHandler`. -/
def toOptions (payload : Transformations) : processor.Transformer :=
  { Resize := { Width := payload.Resize.Width, Height := payload.Resize.Height }
    Crop := { Width := payload.Crop.Width, Height := payload.Crop.Height }
    Mirror := payload.Mirror
    Flip := payload.Flip
    Rotate := payload.Rotate
    Quality := payload.Quality
    Format := payload.Format
    Filters := payload.Filters }

/-- The method `application.transformImageHandler`: the responder calls it
makes, and the world it leaves.  A panic of the bucket adapter is caught by the
recovery middleware, here the response `recovered`. -/
def transformImageHandler (app : application) (r : Request) (w : World) :
    List Response × World :=
  match r.imageID with
  | .error err => ([.badRequestResponse err], w)
  | .ok imageID =>
  match app.getImage imageID w with
  | (.error err, w1) =>
    (if err = Error.ErrNotFound then [.notFoundResponse err] else [.internalServerError err], w1)
  | (.ok image, w1) =>
  if image.UserID ≠ r.user.ID then ([.forbiddenResponse none], w1)
  else
  match supabase.ImageBucket.StreamImage image.Filename w1 with
  | (.error err, w2) => ([.internalServerError err], w2)
  | (.ok buf, w2) =>
  match r.payload with
  | .error err => ([.badRequestResponse err], w2)
  | .ok payload =>
  match r.validateErr with
  | some err => ([.badRequestResponse err], w2)
  | none =>
  let options := toOptions payload
  match (processor.ImageTransformer.Process app.engine { buf := buf, options := options }).1 with
  | .error err => ([.internalServerError err], w2)
  | .ok newBuf =>
  match supabase.ImageBucket.UpdateImage image.Filename newBuf w2 with
  | (.panicked msg, w3) => ([.recovered msg], w3)
  | (.returned (some err), w3) => ([.internalServerError err], w3)
  | (.returned none, w3) =>
  let image := { image with UpdatedAt := app.env.formatRFC3339 w3.now }
  match store.ImageStore.Update image w3 with
  | (some err, w4) => ([.internalServerError err], w4)
  | (none, w4) =>
  match r.writeErr with
  | some err => ([.jsonResponse 200 image, .internalServerError err], w4)
  | none => ([.jsonResponse 200 image], w4)

/-- The method `application.getImagesHandler`: the defaults page 1 and limit
10, the parse of the query, the validation, and the paged read. -/
def getImagesHandler (_app : application) (r : Request) (w : World) :
    List Response × World :=
  let pp : store.PaginationParams := { PageID := 1, Limit := 10 }
  match pp.Parse r.query with
  | (_, some err) => ([.badRequestResponse err], w)
  | (pp, none) =>
  match pp.validate with
  | some err => ([.badRequestResponse err], w)
  | none =>
  match store.ImageStore.GetUserImages r.user.ID pp w with
  | (.error err, w1) => ([.internalServerError err], w1)
  | (.ok images, w1) =>
  match r.writeErr with
  | some err => ([.jsonImages 200 images, .internalServerError err], w1)
  | none => ([.jsonImages 200 images], w1)

end application

/-! ## Concrete collaborators

A small environment, engine and world on which the definitions above can be
evaluated. -/

namespace demo

/-- Image 5, owned by user 1. -/
def image5 : store.Image :=
  { ID := 5, URL := "https://bucket/uploaded_cat.jpg?token=t", Filename := "uploaded_cat.jpg",
    UserID := 1, CreatedAt := "2024-01-01T00:00:00Z", UpdatedAt := "2024-01-01T00:00:00Z" }

/-- The JSON text of a record, without escaping. -/
def render (i : store.Image) : String :=
  "[" ++ toString i.ID ++ "," ++ i.URL ++ "," ++ i.Filename ++ "," ++ toString i.UserID ++ ","
    ++ i.CreatedAt ++ "," ++ i.UpdatedAt ++ "]"

/-- An environment whose decoder knows the text of image 5. -/
def env : Env where
  jsonMarshal i := .ok (render i)
  jsonUnmarshal s :=
    if s = render image5 then .ok image5 else .error (Error.external "invalid character")
  formatRFC3339 t := "t" ++ toString t
  signedURL key _ := "https://bucket/" ++ key ++ "?token=t"

/-- The format a toy buffer is detected as, from its first byte. -/
def typeName (buf : Bytes) : String :=
  match buf.head? with
  | some 1 => "jpeg"
  | some 2 => "png"
  | some 3 => "webp"
  | some 4 => "tiff"
  | _ => "unknown"

/-- The first byte of a toy buffer of a format. -/
def magic : bimg.ImageType → Nat
  | .UNKNOWN => 0
  | .JPEG => 1
  | .PNG => 2
  | .WEBP => 3
  | .TIFF => 4

/-- A toy engine: a buffer is one format byte followed by pixel bytes; the
vector engine rejects a buffer of unknown format, and an encoder writes the
format byte, a zero byte and the pixels. -/
def engine : Engine where
  Process buf _ :=
    if typeName buf = "unknown" then .error (Error.external "Unsupported image format")
    else .ok buf
  Convert buf t :=
    if typeName buf = "unknown" then .error (Error.external "Unsupported image format")
    else .ok (magic t :: buf.tail)
  DetermineImageTypeName := typeName
  Decode buf :=
    if typeName buf = "unknown" then .error (Error.external "image: unknown format")
    else .ok { width := buf.tail.length, height := 1, pix := buf.tail }
  Draw _ src := src
  jpegEncode dst := .ok (1 :: 0 :: dst.pix)
  pngEncode dst := .ok (2 :: 0 :: dst.pix)
  webpEncode dst _ := .ok (3 :: 0 :: dst.pix)
  tiffEncode dst := .ok (4 :: 0 :: dst.pix)

/-- A world with an empty cache, image 5 in the table and its bytes in the
bucket, and no fault. -/
def world : World :=
  { now := 0, redis := [], redisGetFault := none, redisSetFault := none,
    rows := [image5], dbFault := none, blobs := [("uploaded_cat.jpg", [1, 7, 7])],
    bucketFault := none, log := [] }

/-- The application with caching enabled. -/
def appCached : application := { redisEnabled := true, env := env, engine := engine }

/-- The application with caching disabled. -/
def appPlain : application := { redisEnabled := false, env := env, engine := engine }

/-- Scenario B: user 2 asks for a transform of image 5, which user 1 owns. -/
def requestB : Request :=
  { imageID := .ok 5, user := { ID := 2, Username := "bob" },
    payload := .ok { Rotate := 90 }, validateErr := none, writeErr := none }

/-- A second toy engine, which also knows buffers whose first byte is 5 as
`gif`: the vector engine takes them and the decoder has no reader for them. -/
def gifEngine : Engine :=
  { engine with
    DetermineImageTypeName := fun buf => if buf.head? = some 5 then "gif" else typeName buf
    Process := fun buf o => if buf.head? = some 5 then .ok buf else engine.Process buf o
    Decode := fun buf =>
      if buf.head? = some 5 then .error (Error.external "image: unknown format")
      else engine.Decode buf }

/-- The world after a resolve of image 5 with caching enabled: image 5 is in
the cache. -/
def warmWorld : World := (appCached.getImage 5 world).2

/-- User 1 asks for a rotation of image 5 by 90 degrees. -/
def requestA : Request :=
  { imageID := .ok 5, user := { ID := 1, Username := "alice" },
    payload := .ok { Rotate := 90 }, validateErr := none, writeErr := none }

end demo


/-! ## The cache-aside resolver -/

/-- The metadata read changes the world by its log entry only. -/
theorem GetByID_frame (id : Int) (w : World) :
    (store.ImageStore.GetByID id w).2 = w.record (.dbGetByID id) := by
  unfold store.ImageStore.GetByID
  cases w.dbFault <;> simp only []
  cases w.rows.find? (fun i => i.ID == id) <;> rfl

/-- A row that `GetByID` returns carries the id asked for. -/
theorem GetByID_id (id : Int) (w : World) (r : store.Image)
    (h : (store.ImageStore.GetByID id w).1 = .ok r) : r.ID = id := by
  unfold store.ImageStore.GetByID at h
  cases hf : w.dbFault <;> simp only [hf] at h
  · cases hr : w.rows.find? (fun i => i.ID == id) <;> simp only [hr] at h
    · cases h
    · cases h
      have := List.find?_some hr
      simpa using this
  · cases h

/-- The cache read changes the world by its log entry only. -/
theorem cacheGet_frame (L : Env) (id : Int) (w : World) :
    (cache.ImageStore.Get L id w).2 = w.record (.cacheGet (cache.cacheKey id)) := by
  unfold cache.ImageStore.Get redis.Get
  cases w.redisGetFault <;> simp only []
  · cases w.redis.find? _ <;> simp only [] <;> split <;> (try split) <;> rfl
  · split <;> rfl

/-- With caching disabled the resolver is the metadata read. -/
theorem getImage_disabled (app : application) (id : Int) (w : World)
    (h : app.redisEnabled = false) :
    app.getImage id w = store.ImageStore.GetByID id w := by
  simp [application.getImage, h]

/-- C4: with caching disabled, `getImage` is the metadata read `GetByID` for
the id, result and world alike: the only call it logs is that read, none of the
logged calls addresses the cache store, and the cache store is unchanged. -/
theorem getImage_cache_disabled (app : application) (imageID : Int) (w : World)
    (h : app.redisEnabled = false) :
    app.getImage imageID w = store.ImageStore.GetByID imageID w ∧
    (app.getImage imageID w).2.log = w.log ++ [Call.dbGetByID imageID] ∧
    (∀ c ∈ (app.getImage imageID w).2.log.drop w.log.length, c.isCache = false) ∧
    (app.getImage imageID w).2.redis = w.redis := by
  rw [getImage_disabled app imageID w h, GetByID_frame]
  simp [World.record, Call.isCache]

/-- The statement of C4 on the sample world, caching disabled. -/
theorem getImage_cache_disabled_witness :
    demo.appPlain.getImage 5 demo.world = store.ImageStore.GetByID 5 demo.world ∧
    (demo.appPlain.getImage 5 demo.world).2.log = demo.world.log ++ [Call.dbGetByID 5] ∧
    (∀ c ∈ (demo.appPlain.getImage 5 demo.world).2.log.drop demo.world.log.length,
      c.isCache = false) ∧
    (demo.appPlain.getImage 5 demo.world).2.redis = demo.world.redis :=
  getImage_cache_disabled demo.appPlain 5 demo.world rfl


/-- With caching enabled the resolver is decided by the result of the cache
read, then of the metadata read, then of the cache write. -/
theorem getImage_enabled (app : application) (id : Int) (w : World)
    (h : app.redisEnabled = true) :
    app.getImage id w =
      match (cache.ImageStore.Get app.env id w).1 with
      | .error err => (.error err, w.record (.cacheGet (cache.cacheKey id)))
      | .ok (some image) => (.ok image, w.record (.cacheGet (cache.cacheKey id)))
      | .ok none =>
        match (store.ImageStore.GetByID id (w.record (.cacheGet (cache.cacheKey id)))).1 with
        | .error err =>
          (.error err, (w.record (.cacheGet (cache.cacheKey id))).record (.dbGetByID id))
        | .ok image =>
          match cache.ImageStore.Set app.env image
            ((w.record (.cacheGet (cache.cacheKey id))).record (.dbGetByID id)) with
          | (some err, w3) => (.error err, w3)
          | (none, w3) => (.ok image, w3) := by
  have hg := cacheGet_frame app.env id w
  have hd := GetByID_frame id (w.record (.cacheGet (cache.cacheKey id)))
  unfold application.getImage
  simp only [h, not_true_eq_false, if_false]
  rcases hc : cache.ImageStore.Get app.env id w with ⟨r, w1⟩
  rw [hc] at hg
  simp only at hg
  subst hg
  rcases r with err | (_ | image)
  · rfl
  · simp only
    rcases hdb : store.ImageStore.GetByID id (w.record (.cacheGet (cache.cacheKey id)))
      with ⟨r2, w2⟩
    rw [hdb] at hd
    simp only at hd
    subst hd
    rcases r2 with err | image
    · rfl
    · rfl
  · rfl

/-- The cache write logs no mutation of the bucket or the table and no metadata
read, and leaves the table and the bucket as they are. -/
theorem cacheSet_frame (L : Env) (image : store.Image) (w : World) :
    (∃ cs, (cache.ImageStore.Set L image w).2.log = w.log ++ cs ∧
      ∀ c ∈ cs, c.isMutation = false ∧ c.isDbRead = false) ∧
    (cache.ImageStore.Set L image w).2.rows = w.rows ∧
    (cache.ImageStore.Set L image w).2.blobs = w.blobs := by
  unfold cache.ImageStore.Set
  cases L.jsonMarshal image with
  | error e => exact ⟨⟨[], by simp⟩, rfl, rfl⟩
  | ok s =>
    simp only [redis.SetEx]
    cases w.redisSetFault <;>
      exact ⟨⟨[Call.cacheSetEx (cache.cacheKey image.ID) s cache.ImageExpTime],
        by simp [World.record, Call.isMutation, Call.isDbRead]⟩, rfl, rfl⟩

/-- The resolver logs no mutation of the bucket or the table and leaves both as
they are. -/
theorem getImage_frame (app : application) (id : Int) (w : World) :
    (∃ cs, (app.getImage id w).2.log = w.log ++ cs ∧ ∀ c ∈ cs, c.isMutation = false) ∧
    (app.getImage id w).2.rows = w.rows ∧ (app.getImage id w).2.blobs = w.blobs := by
  cases hen : app.redisEnabled with
  | false =>
    rw [getImage_disabled app id w hen, GetByID_frame]
    exact ⟨⟨[Call.dbGetByID id], by simp [World.record, Call.isMutation]⟩, rfl, rfl⟩
  | true =>
    rw [getImage_enabled app id w hen]
    rcases cache.ImageStore.Get app.env id w with ⟨r, w1⟩
    rcases r with err | (_ | image)
    · exact ⟨⟨[Call.cacheGet (cache.cacheKey id)],
        by simp [World.record, Call.isMutation]⟩, rfl, rfl⟩
    · simp only
      rcases (store.ImageStore.GetByID id (w.record (.cacheGet (cache.cacheKey id)))).1
        with err | image
      · exact ⟨⟨[Call.cacheGet (cache.cacheKey id), Call.dbGetByID id],
          by simp [World.record, Call.isMutation]⟩, rfl, rfl⟩
      · simp only
        obtain ⟨⟨cs, hcs, hmut⟩, hrows, hblobs⟩ := cacheSet_frame app.env image
          ((w.record (.cacheGet (cache.cacheKey id))).record (.dbGetByID id))
        rcases hs : cache.ImageStore.Set app.env image
          ((w.record (.cacheGet (cache.cacheKey id))).record (.dbGetByID id)) with ⟨r3, w3⟩
        rw [hs] at hcs hrows hblobs
        have hfin : (∃ cs, w3.log = w.log ++ cs ∧ ∀ c ∈ cs, c.isMutation = false) ∧
            w3.rows = w.rows ∧ w3.blobs = w.blobs := by
          refine ⟨⟨[Call.cacheGet (cache.cacheKey id), Call.dbGetByID id] ++ cs, ?_, ?_⟩, ?_, ?_⟩
          · simpa [World.record] using hcs
          · intro c hc
            simp only [List.mem_append, List.mem_cons, List.mem_singleton,
              List.not_mem_nil, or_false] at hc
            rcases hc with (rfl | rfl) | hc
            · rfl
            · rfl
            · exact (hmut c hc).1
          · simpa [World.record] using hrows
          · simpa [World.record] using hblobs
        cases r3 <;> exact hfin
    · exact ⟨⟨[Call.cacheGet (cache.cacheKey id)],
        by simp [World.record, Call.isMutation]⟩, rfl, rfl⟩

/-- C1, on the code: a failing cache read is reported by `ImageStore.Get` as a
miss.  Whatever error `e` the Redis `GET` fails with, the reply carries the
empty string, the first `switch` case is taken, and `Get` returns `(nil, nil)`;
with caching enabled `getImage` then reads the metadata store.  On the sample
world with a refused connection `getImage` returns image 5 and no error. -/
theorem getImage_read_fault_falls_through (env : Env) (engine : Engine) (imageID : Int)
    (w : World) (e : Error) :
    (cache.ImageStore.Get env imageID { w with redisGetFault := some e }).1 = .ok none ∧
    Call.dbGetByID imageID ∈
      (application.getImage ⟨true, env, engine⟩ imageID
        { w with redisGetFault := some e }).2.log ∧
    (demo.appCached.getImage 5
        { demo.world with redisGetFault := some (Error.external "connection refused") }).1
      = .ok demo.image5 := by
  have hget : (cache.ImageStore.Get env imageID { w with redisGetFault := some e }).1
      = .ok none := by
    simp [cache.ImageStore.Get, redis.Get]
  refine ⟨hget, ?_, rfl⟩
  rw [getImage_enabled _ _ _ rfl]
  simp only [hget]
  rcases (store.ImageStore.GetByID imageID
    (World.record { w with redisGetFault := some e } (.cacheGet (cache.cacheKey imageID)))).1
    with err | image
  · simp [World.record]
  · simp only
    obtain ⟨⟨cs, hcs, -⟩, -, -⟩ := cacheSet_frame env image
      ((World.record { w with redisGetFault := some e }
        (.cacheGet (cache.cacheKey imageID))).record (.dbGetByID imageID))
    rcases hs : cache.ImageStore.Set env image
      ((World.record { w with redisGetFault := some e }
        (.cacheGet (cache.cacheKey imageID))).record (.dbGetByID imageID)) with ⟨r3, w3⟩
    rw [hs] at hcs
    have : Call.dbGetByID imageID ∈ w3.log := by
      simp only at hcs
      rw [hcs]
      simp [World.record]
    cases r3 <;> exact this

/-- C2, as stated, fails: with caching enabled, a cache miss and a metadata
read that gives image 5, a failing cache write makes `getImage` return the
error of the write and not the record. -/
theorem getImage_set_fault_counterexample :
    ¬ (∀ (app : application) (id : Int) (w : World) (r : store.Image),
        app.redisEnabled = true →
        (cache.ImageStore.Get app.env id w).1 = .ok none →
        (store.ImageStore.GetByID id (cache.ImageStore.Get app.env id w).2).1 = .ok r →
        (app.getImage id w).1 = .ok r) := by
  intro h
  have h1 := h demo.appCached 5
    { demo.world with redisSetFault := some (Error.external "connection refused") }
    demo.image5 rfl rfl rfl
  have h2 : (demo.appCached.getImage 5
      { demo.world with redisSetFault := some (Error.external "connection refused") }).1
      = .error (Error.external "connection refused") := rfl
  rw [h2] at h1
  cases h1

/-- C2, amended: with caching enabled, after a cache miss and a metadata read
that gives the record `r`, `getImage` returns `r` without error when the cache
write returns no error, and returns the error of the cache write, without the
record, when the write fails. -/
theorem getImage_miss_then_set (app : application) (id : Int) (w : World) (r : store.Image)
    (hen : app.redisEnabled = true)
    (hmiss : (cache.ImageStore.Get app.env id w).1 = .ok none)
    (hdb : (store.ImageStore.GetByID id (cache.ImageStore.Get app.env id w).2).1 = .ok r) :
    (app.getImage id w).1 =
      match (cache.ImageStore.Set app.env r
        (store.ImageStore.GetByID id (cache.ImageStore.Get app.env id w).2).2).1 with
      | none => .ok r
      | some err => .error err := by
  rw [getImage_enabled app id w hen]
  rw [cacheGet_frame] at hdb
  rw [cacheGet_frame, GetByID_frame]
  simp only [hmiss, hdb]
  rcases cache.ImageStore.Set app.env r
    ((w.record (.cacheGet (cache.cacheKey id))).record (.dbGetByID id)) with ⟨r3, w3⟩
  cases r3 <;> rfl

/-- The amended C2 on the sample world: the write succeeds and image 5 is
returned. -/
theorem getImage_miss_then_set_witness :
    (demo.appCached.getImage 5 demo.world).1 =
      match (cache.ImageStore.Set demo.appCached.env demo.image5
        (store.ImageStore.GetByID 5
          (cache.ImageStore.Get demo.appCached.env 5 demo.world).2).2).1 with
      | none => .ok demo.image5
      | some err => .error err :=
  getImage_miss_then_set demo.appCached 5 demo.world demo.image5 rfl rfl rfl

/-- C3: with caching enabled, an empty cache, no fault, the row `r` under id
`N`, and a codec that gives the non-empty text `s` for `r` and reads it back,
the first `getImage N` returns `r` and logs exactly a cache read, one metadata
read and one cache write under the key of `N` with a time to live of 15
minutes; a second `getImage N` less than 15 minutes later returns `r` again and
logs a cache read only, so no metadata read. -/
theorem getImage_cold_then_warm (app : application) (N : Int) (w : World) (r : store.Image)
    (s : String)
    (hen : app.redisEnabled = true)
    (hcold : w.redis = [])
    (hget : w.redisGetFault = none) (hset : w.redisSetFault = none) (hdbf : w.dbFault = none)
    (hrow : w.rows.find? (fun i => i.ID == N) = some r)
    (hmar : app.env.jsonMarshal r = .ok s) (hs : s ≠ "")
    (hunm : app.env.jsonUnmarshal s = .ok r) :
    (app.getImage N w).1 = .ok r ∧
    (app.getImage N w).2.log = w.log ++
      [Call.cacheGet (cache.cacheKey N), Call.dbGetByID N,
       Call.cacheSetEx (cache.cacheKey N) s (15 * 60 * 1000000000)] ∧
    ∀ dt, dt < 15 * 60 * 1000000000 →
      (app.getImage N ((app.getImage N w).2.advance dt)).1 = .ok r ∧
      (app.getImage N ((app.getImage N w).2.advance dt)).2.log =
        (app.getImage N w).2.log ++ [Call.cacheGet (cache.cacheKey N)] := by
  have hid : r.ID = N := by
    have := List.find?_some hrow
    simpa using this
  have hfirst : app.getImage N w =
      (.ok r, { w with
        redis := [{ key := cache.cacheKey N, value := s, expiresAt := w.now + cache.ImageExpTime }]
        log := w.log ++ [Call.cacheGet (cache.cacheKey N), Call.dbGetByID N,
          Call.cacheSetEx (cache.cacheKey N) s cache.ImageExpTime] }) := by
    rw [getImage_enabled app N w hen]
    simp [cache.ImageStore.Get, redis.Get, hget, hcold, store.ImageStore.GetByID, World.record,
      hdbf, hrow, cache.ImageStore.Set, hmar, redis.SetEx, hset, hid]
  have httl : cache.ImageExpTime = 15 * 60 * 1000000000 := by
    simp [cache.ImageExpTime, cache.Minute]
  rw [hfirst]
  refine ⟨rfl, by simp [httl], ?_⟩
  intro dt hdt
  rw [getImage_enabled app N _ hen]
  have hlt : w.now + dt < w.now + cache.ImageExpTime := by
    rw [httl]; omega
  simp [cache.ImageStore.Get, redis.Get, hget, World.advance, World.record, hlt, hs, hunm]

/-- The statement of C3 on the sample world, the second call one microsecond
after the first. -/
theorem getImage_cold_then_warm_witness :
    (demo.appCached.getImage 5 demo.world).1 = .ok demo.image5 ∧
    (demo.appCached.getImage 5 ((demo.appCached.getImage 5 demo.world).2.advance 1000)).1
      = .ok demo.image5 ∧
    (demo.appCached.getImage 5 ((demo.appCached.getImage 5 demo.world).2.advance 1000)).2.log
      = (demo.appCached.getImage 5 demo.world).2.log ++ [Call.cacheGet (cache.cacheKey 5)] :=
  have h := getImage_cold_then_warm demo.appCached 5 demo.world demo.image5
    (demo.render demo.image5) rfl rfl rfl rfl rfl rfl rfl (by decide) rfl
  ⟨h.1, (h.2.2 1000 (by decide)).1, (h.2.2 1000 (by decide)).2⟩

/-! ## The transform handler -/

/-- C5: when the resolver returns an image whose owner is not the requesting
user, `transformImageHandler` answers with the forbidden response alone and
leaves the world as the resolver left it: no call after the resolve, no
mutating call to the bucket or the metadata store in the log, and the table and
the bucket unchanged. -/
theorem transformImageHandler_forbidden (app : application) (r : Request) (w : World)
    (id : Int) (image : store.Image)
    (hid : r.imageID = .ok id)
    (himg : (app.getImage id w).1 = .ok image)
    (hown : image.UserID ≠ r.user.ID) :
    (app.transformImageHandler r w).1 = [Response.forbiddenResponse none] ∧
    (app.transformImageHandler r w).2 = (app.getImage id w).2 ∧
    (∃ cs, (app.transformImageHandler r w).2.log = w.log ++ cs ∧
      ∀ c ∈ cs, c.isMutation = false) ∧
    (app.transformImageHandler r w).2.rows = w.rows ∧
    (app.transformImageHandler r w).2.blobs = w.blobs := by
  have hframe := getImage_frame app id w
  have hrun : app.transformImageHandler r w =
      ([Response.forbiddenResponse none], (app.getImage id w).2) := by
    unfold application.transformImageHandler
    simp only [hid]
    rcases hg : app.getImage id w with ⟨res, w1⟩
    rw [hg] at himg
    simp only at himg
    subst himg
    simp [hown]
  rw [hrun]
  exact ⟨rfl, rfl, hframe.1, hframe.2.1, hframe.2.2⟩

/-- Scenario B on the sample world: user 2 asks for a transform of image 5 of
user 1. -/
theorem transformImageHandler_forbidden_witness :
    (demo.appPlain.transformImageHandler demo.requestB demo.world).1
      = [Response.forbiddenResponse none] ∧
    (demo.appPlain.transformImageHandler demo.requestB demo.world).2.rows = demo.world.rows ∧
    (demo.appPlain.transformImageHandler demo.requestB demo.world).2.blobs
      = demo.world.blobs :=
  have h := transformImageHandler_forbidden demo.appPlain demo.requestB demo.world 5
    demo.image5 rfl rfl (by decide)
  ⟨h.1, h.2.2.2.1, h.2.2.2.2⟩

/-! ## The transform pipeline -/

namespace Eng

/-- A call is in the trace of a sequence when it is in the trace of the first
part, or the first part returned and it is in the trace of the second. -/
theorem mem_andThen {α β : Type} (c : EngineCall) (m : Eng α) (k : α → Eng β) :
    c ∈ (andThen m k).2 ↔ c ∈ m.2 ∨ ∃ a, m.1 = .ok a ∧ c ∈ (k a).2 := by
  unfold andThen
  rcases m with ⟨r, t⟩
  cases r <;> simp

/-- A sequence returns when both of its parts do. -/
theorem andThen_ok {α β : Type} (m : Eng α) (k : α → Eng β) (b : β) :
    (andThen m k).1 = .ok b ↔ ∃ a, m.1 = .ok a ∧ (k a).1 = .ok b := by
  unfold andThen
  rcases m with ⟨r, t⟩
  cases r <;> simp

/-- A sequence whose first part returns `a` continues with `a`. -/
theorem andThen_of_ok {α β : Type} (m : Eng α) (k : α → Eng β) (a : α) (h : m.1 = .ok a) :
    andThen m k = ((k a).1, m.2 ++ (k a).2) := by
  unfold andThen
  rw [h]

/-- A sequence whose first part fails stops there. -/
theorem andThen_of_error {α β : Type} (m : Eng α) (k : α → Eng β) (e : Error)
    (h : m.1 = .error e) : andThen m k = (.error e, m.2) := by
  unfold andThen
  rw [h]

/-- The first call of a sequence that starts with a call. -/
theorem andThen_head {α β : Type} (c : EngineCall) (r : Except Error α) (k : α → Eng β) :
    (andThen (call c r) k).2.head? = some c := by
  unfold andThen call
  cases r <;> simp

end Eng

namespace processor

/-- The result of the first block is the result of its engine call. -/
theorem orientationStage_fst (E : Engine) (it : ImageTransformer) :
    (orientationStage E it).1 = E.Process it.buf (bimgOpts it.options) := rfl

/-- The trace of the first block is its one engine call. -/
theorem orientationStage_snd (E : Engine) (it : ImageTransformer) :
    (orientationStage E it).2 = [EngineCall.Process Site.orientation it.buf (bimgOpts it.options)] :=
  rfl

/-- The result of the resize block. -/
theorem resizeStage_fst (E : Engine) (o : Transformer) (b : Bytes) :
    (resizeStage E o b).1 =
      if 0 < o.Resize.Width ∧ 0 < o.Resize.Height then
        E.Process b { Width := o.Resize.Width, Height := o.Resize.Height }
      else .ok b := by
  unfold resizeStage
  by_cases h : 0 < o.Resize.Width ∧ 0 < o.Resize.Height <;> simp [h, Eng.call, Eng.ret]

/-- The trace of the resize block. -/
theorem resizeStage_snd (E : Engine) (o : Transformer) (b : Bytes) :
    (resizeStage E o b).2 =
      if 0 < o.Resize.Width ∧ 0 < o.Resize.Height then
        [EngineCall.Process Site.resize b { Width := o.Resize.Width, Height := o.Resize.Height }]
      else [] := by
  unfold resizeStage
  by_cases h : 0 < o.Resize.Width ∧ 0 < o.Resize.Height <;> simp [h, Eng.call, Eng.ret]

/-- The result of the crop block. -/
theorem cropStage_fst (E : Engine) (o : Transformer) (b : Bytes) :
    (cropStage E o b).1 =
      if 0 < o.Crop.Width ∧ 0 < o.Crop.Height then
        E.Process b { Width := o.Crop.Width, Height := o.Crop.Height,
                      Gravity := bimg.Gravity.GravityCentre }
      else .ok b := by
  unfold cropStage
  by_cases h : 0 < o.Crop.Width ∧ 0 < o.Crop.Height <;> simp [h, Eng.call, Eng.ret]

/-- The trace of the crop block. -/
theorem cropStage_snd (E : Engine) (o : Transformer) (b : Bytes) :
    (cropStage E o b).2 =
      if 0 < o.Crop.Width ∧ 0 < o.Crop.Height then
        [EngineCall.Process Site.crop b { Width := o.Crop.Width, Height := o.Crop.Height,
                                          Gravity := bimg.Gravity.GravityCentre }]
      else [] := by
  unfold cropStage
  by_cases h : 0 < o.Crop.Width ∧ 0 < o.Crop.Height <;> simp [h, Eng.call, Eng.ret]

/-- The only call of the conversion block is the conversion of its input, made
for a non-empty name that is a key of `ImageTypes`. -/
theorem mem_conversionStage (E : Engine) (o : Transformer) (b : Bytes) (c : EngineCall)
    (h : c ∈ (conversionStage E o b).2) :
    c = EngineCall.Convert b ((ImageTypes (newType o)).getD bimg.ImageType.UNKNOWN) ∧
    newType o ≠ "" ∧ (ImageTypes (newType o)).isSome = true := by
  unfold conversionStage at h
  simp only at h
  split_ifs at h with h1 h2
  · simp [Eng.fail] at h
  · rw [Eng.mem_andThen] at h
    rcases h with h | ⟨a, -, h⟩
    · simp only [Eng.call, List.mem_singleton] at h
      refine ⟨h, h2, ?_⟩
      by_contra hk
      exact h1 ⟨hk, h2⟩
    · split_ifs at h <;> simp [Eng.fail, Eng.ret] at h
  · simp [Eng.ret] at h

/-- The only call of `encodeImage` is an encoder call. -/
theorem mem_encodeImage (E : Engine) (dst : Raster) (f : String) (c : EngineCall)
    (h : c ∈ (encodeImage E dst f).2) : ∃ t, c = EngineCall.Encode t dst := by
  unfold encodeImage at h
  split_ifs at h <;> simp [Eng.call, Eng.fail] at h <;> exact ⟨_, h⟩

/-- Every call of `addFilters` is a raster call. -/
theorem mem_addFilters (E : Engine) (b : Bytes) (o : Transformer) (c : EngineCall)
    (h : c ∈ (addFilters E b o).2) : c.isRaster = true := by
  unfold addFilters at h
  simp only [Eng.mem_andThen] at h
  rcases h with h | ⟨src, -, h | ⟨dst, -, h⟩⟩
  · simp only [Eng.call, List.mem_singleton] at h
    subst h; rfl
  · simp only [Eng.call, List.mem_singleton] at h
    subst h; rfl
  · obtain ⟨t, rfl⟩ := mem_encodeImage _ _ _ _ h
    rfl

end processor

namespace processor

/-- The run of `Process` once its first four blocks have returned. -/
theorem Process_of_stages (E : Engine) (it : ImageTransformer) (b1 b2 b3 b4 : Bytes)
    (h1 : E.Process it.buf (bimgOpts it.options) = .ok b1)
    (h2 : (resizeStage E it.options b1).1 = .ok b2)
    (h3 : (cropStage E it.options b2).1 = .ok b3)
    (h4 : (conversionStage E it.options b3).1 = .ok b4) :
    ImageTransformer.Process E it =
      ((addFilters E b4 it.options).1,
        (orientationStage E it).2 ++ ((resizeStage E it.options b1).2 ++
          ((cropStage E it.options b2).2 ++ ((conversionStage E it.options b3).2 ++
            (addFilters E b4 it.options).2)))) := by
  unfold ImageTransformer.Process
  rw [Eng.andThen_of_ok _ _ b1 h1, Eng.andThen_of_ok _ _ b2 h2, Eng.andThen_of_ok _ _ b3 h3,
    Eng.andThen_of_ok _ _ b4 h4]

/-- The run of `Process` when its fourth block fails after the first three. -/
theorem Process_of_conversion_error (E : Engine) (it : ImageTransformer) (b1 b2 b3 : Bytes)
    (e : Error)
    (h1 : E.Process it.buf (bimgOpts it.options) = .ok b1)
    (h2 : (resizeStage E it.options b1).1 = .ok b2)
    (h3 : (cropStage E it.options b2).1 = .ok b3)
    (h4 : (conversionStage E it.options b3).1 = .error e) :
    (ImageTransformer.Process E it).1 = .error e := by
  unfold ImageTransformer.Process
  rw [Eng.andThen_of_ok _ _ b1 h1, Eng.andThen_of_ok _ _ b2 h2, Eng.andThen_of_ok _ _ b3 h3,
    Eng.andThen_of_error _ _ e h4]

/-- A run of `Process` that returns went through all five blocks. -/
theorem Process_ok (E : Engine) (it : ImageTransformer) (out : Bytes)
    (h : (ImageTransformer.Process E it).1 = .ok out) :
    ∃ b1 b2 b3 b4, E.Process it.buf (bimgOpts it.options) = .ok b1 ∧
      (resizeStage E it.options b1).1 = .ok b2 ∧ (cropStage E it.options b2).1 = .ok b3 ∧
      (conversionStage E it.options b3).1 = .ok b4 ∧ (addFilters E b4 it.options).1 = .ok out := by
  unfold ImageTransformer.Process at h
  simp only [Eng.andThen_ok] at h
  obtain ⟨b1, h1, b2, h2, b3, h3, b4, h4, h5⟩ := h
  exact ⟨b1, b2, b3, b4, h1, h2, h3, h4, h5⟩

/-- Where a call in the trace of `Process` comes from. -/
theorem mem_Process (E : Engine) (it : ImageTransformer) (c : EngineCall)
    (h : c ∈ (ImageTransformer.Process E it).2) :
    c = EngineCall.Process Site.orientation it.buf (bimgOpts it.options) ∨
    ∃ b1, E.Process it.buf (bimgOpts it.options) = .ok b1 ∧
      (c ∈ (resizeStage E it.options b1).2 ∨
       ∃ b2, (resizeStage E it.options b1).1 = .ok b2 ∧
        (c ∈ (cropStage E it.options b2).2 ∨
         ∃ b3, (cropStage E it.options b2).1 = .ok b3 ∧
          (c ∈ (conversionStage E it.options b3).2 ∨
           ∃ b4, (conversionStage E it.options b3).1 = .ok b4 ∧
            c ∈ (addFilters E b4 it.options).2))) := by
  unfold ImageTransformer.Process at h
  simp only [Eng.mem_andThen] at h
  rcases h with h | ⟨b1, h1, h⟩
  · left; simpa [orientationStage, Eng.call] using h
  · right; exact ⟨b1, h1, h⟩

/-- The fourth block on a name that is not in `ImageTypes`. -/
theorem conversionStage_unsupported (E : Engine) (o : Transformer) (b : Bytes)
    (hnt : newType o ≠ "") (hnone : ImageTypes (newType o) = none) :
    conversionStage E o b = (.error (Error.new "unsorported image format"), []) := by
  unfold conversionStage
  simp [hnt, hnone, Eng.fail]

end processor

/-- The name `newType` is empty only for an empty format. -/
theorem newType_ne_empty (o : processor.Transformer) (h : o.Format ≠ "") :
    processor.newType o ≠ "" := by
  unfold processor.newType
  by_cases h1 : o.Format = "jpg"
  · simp [h1]
  · by_cases h2 : o.Format = "tif"
    · simp [h2]
    · simp [h1, h2, h]

/-- The map `ImageTypes` has the four keys `jpeg`, `png`, `webp`, `tiff`. -/
theorem ImageTypes_none (n : String) (h : n ∉ ["jpeg", "png", "webp", "tiff"]) :
    processor.ImageTypes n = none := by
  simp only [List.mem_cons, List.mem_singleton, List.not_mem_nil, or_false, not_or] at h
  simp [processor.ImageTypes, h.1, h.2.1, h.2.2.1, h.2.2.2]

open processor in
/-- C6, as stated, fails: on the empty buffer the first engine call fails, and
`Process` returns the error of the engine, not the unsupported-format error,
for the format `bmp`. -/
theorem Process_unsupported_format_counterexample :
    ¬ (∀ (E : Engine) (it : ImageTransformer),
        it.options.Format ≠ "" →
        newType it.options ∉ ["jpeg", "png", "webp", "tiff"] →
        (ImageTransformer.Process E it).1 = .error (Error.new "unsorported image format")) := by
  intro h
  have h1 := h demo.engine { buf := [], options := { Format := "bmp" } } (by decide) (by decide)
  have h2 : (ImageTransformer.Process demo.engine
      { buf := [], options := { Format := "bmp" } }).1
      = .error (Error.external "Unsupported image format") := rfl
  rw [h2] at h1
  cases h1

open processor in
/-- C6, amended: for a non-empty format that, after the mapping of `jpg` and
`tif`, is none of `jpeg`, `png`, `webp`, `tiff`, `Process` returns an error and
no buffer, whatever the input buffer; the error is the unsupported-format error
whenever the three engine calls before the format check (orientation and
quality, resize, crop) return, and no conversion or raster call is made; when
one of those three engine calls fails, the error is the error of that call. -/
theorem Process_unsupported_format (E : Engine) (it : ImageTransformer)
    (hne : it.options.Format ≠ "")
    (hbad : newType it.options ∉ ["jpeg", "png", "webp", "tiff"]) :
    (∃ e, (ImageTransformer.Process E it).1 = .error e) ∧
    (∀ b1 b2 b3,
      E.Process it.buf (bimgOpts it.options) = .ok b1 →
      (resizeStage E it.options b1).1 = .ok b2 →
      (cropStage E it.options b2).1 = .ok b3 →
      (ImageTransformer.Process E it).1 = .error (Error.new "unsorported image format")) ∧
    (∀ c ∈ (ImageTransformer.Process E it).2, ∃ s b o, c = EngineCall.Process s b o) ∧
    (∀ e, E.Process it.buf (bimgOpts it.options) = .error e →
      (ImageTransformer.Process E it).1 = .error e) ∧
    (∀ b1 e, E.Process it.buf (bimgOpts it.options) = .ok b1 →
      (resizeStage E it.options b1).1 = .error e →
      (ImageTransformer.Process E it).1 = .error e) ∧
    (∀ b1 b2 e, E.Process it.buf (bimgOpts it.options) = .ok b1 →
      (resizeStage E it.options b1).1 = .ok b2 →
      (cropStage E it.options b2).1 = .error e →
      (ImageTransformer.Process E it).1 = .error e) := by
  have hnt := newType_ne_empty it.options hne
  have hnone := ImageTypes_none _ hbad
  have hconv := fun b => conversionStage_unsupported E it.options b hnt hnone
  refine ⟨?_, ?_, ?_, ?_, ?_, ?_⟩
  · cases hres : (ImageTransformer.Process E it).1 with
    | error e => exact ⟨e, rfl⟩
    | ok out =>
      obtain ⟨b1, b2, b3, b4, -, -, -, h4, -⟩ := Process_ok E it out hres
      rw [hconv] at h4
      cases h4
  · intro b1 b2 b3 h1 h2 h3
    exact Process_of_conversion_error E it b1 b2 b3 _ h1 h2 h3 (by rw [hconv])
  · intro c hc
    rcases mem_Process E it c hc with h | ⟨b1, -, h | ⟨b2, -, h | ⟨b3, -, h | ⟨b4, h4, -⟩⟩⟩⟩
    · exact ⟨_, _, _, h⟩
    · rw [resizeStage_snd] at h
      split_ifs at h
      · exact ⟨_, _, _, List.mem_singleton.mp h⟩
      · simp at h
    · rw [cropStage_snd] at h
      split_ifs at h
      · exact ⟨_, _, _, List.mem_singleton.mp h⟩
      · simp at h
    · rw [hconv] at h
      simp at h
    · rw [hconv] at h4
      cases h4
  · intro e h1
    unfold ImageTransformer.Process
    rw [Eng.andThen_of_error _ _ e h1]
  · intro b1 e h1 h2
    unfold ImageTransformer.Process
    rw [Eng.andThen_of_ok _ _ b1 h1, Eng.andThen_of_error _ _ e h2]
  · intro b1 b2 e h1 h2 h3
    unfold ImageTransformer.Process
    rw [Eng.andThen_of_ok _ _ b1 h1, Eng.andThen_of_ok _ _ b2 h2,
      Eng.andThen_of_error _ _ e h3]

open processor in
/-- The amended C6 on the toy engine: a JPEG buffer and the format `bmp`. -/
theorem Process_unsupported_format_witness :
    (ImageTransformer.Process demo.engine
      { buf := [1, 7, 7], options := { Format := "bmp" } }).1
      = .error (Error.new "unsorported image format") :=
  (Process_unsupported_format demo.engine { buf := [1, 7, 7], options := { Format := "bmp" } }
    (by decide) (by decide)).2.1 [1, 7, 7] [1, 7, 7] [1, 7, 7] rfl rfl rfl

namespace processor

/-- The fourth block on a supported name: what it returns was converted and is
detected as that name. -/
theorem conversionStage_ok (E : Engine) (o : Transformer) (b b4 : Bytes)
    (hnt : newType o ≠ "") (h : (conversionStage E o b).1 = .ok b4) :
    E.DetermineImageTypeName b4 = newType o := by
  unfold conversionStage at h
  simp only at h
  split_ifs at h with h1
  · simp [Eng.fail] at h
  · rw [Eng.andThen_ok] at h
    obtain ⟨c, -, h⟩ := h
    split_ifs at h with h3
    · simp [Eng.fail] at h
    · simp only [Eng.ret, Except.ok.injEq] at h
      subst h
      exact not_not.mp h3

/-- The fourth block when the converted buffer is detected as another format. -/
theorem conversionStage_mismatch (E : Engine) (o : Transformer) (b c : Bytes)
    (t : bimg.ImageType)
    (hmem : EngineCall.Convert b t ∈ (conversionStage E o b).2)
    (hc : E.Convert b t = .ok c) (hdet : E.DetermineImageTypeName c ≠ newType o) :
    (conversionStage E o b).1 = .error (Error.new "unknown conversion error") := by
  obtain ⟨ht, hnt, hsome⟩ := mem_conversionStage E o b _ hmem
  simp only [EngineCall.Convert.injEq, true_and] at ht
  subst ht
  unfold conversionStage
  simp only [hsome, not_true_eq_false, false_and, if_false, hnt, ne_eq, not_false_eq_true,
    if_true]
  rw [Eng.andThen_of_ok _ _ c (by simpa [Eng.call] using hc)]
  simp [hdet, Eng.fail]

/-- What `encodeImage` returns on one of the four names comes from the encoder
of that name. -/
theorem encodeImage_detect (E : Engine) (henc : E.EncodersFaithful) (dst : Raster)
    (f : String) (out : Bytes) (hf : f ∈ ["jpeg", "png", "webp", "tiff"])
    (h : (encodeImage E dst f).1 = .ok out) : E.DetermineImageTypeName out = f := by
  obtain ⟨hj, hp, hw, ht⟩ := henc
  simp only [List.mem_cons, List.mem_singleton, List.not_mem_nil, or_false] at hf
  rcases hf with rfl | rfl | rfl | rfl
  · exact hj dst out (by simpa [encodeImage, Eng.call] using h)
  · exact hp dst out (by simpa [encodeImage, Eng.call] using h)
  · exact hw dst out (by simpa [encodeImage, Eng.call] using h)
  · exact ht dst out (by simpa [encodeImage, Eng.call] using h)

/-- What `addFilters` returns is what `encodeImage` returns for the detected
format of its input. -/
theorem addFilters_ok (E : Engine) (b : Bytes) (o : Transformer) (out : Bytes)
    (h : (addFilters E b o).1 = .ok out) :
    ∃ src, E.Decode b = .ok src ∧
      (encodeImage E (E.Draw (filterChain o.Filters) src) (E.DetermineImageTypeName b)).1
        = .ok out := by
  unfold addFilters at h
  simp only [Eng.andThen_ok] at h
  obtain ⟨src, hsrc, dst, hdst, h⟩ := h
  simp only [Eng.call, Except.ok.injEq] at hsrc hdst
  subst hdst
  exact ⟨src, hsrc, h⟩

/-- The six accepted format strings name the four keys of `ImageTypes`. -/
theorem newType_supported (o : Transformer)
    (h : o.Format ∈ ["jpeg", "png", "webp", "tiff", "jpg", "tif"]) :
    newType o ∈ ["jpeg", "png", "webp", "tiff"] ∧ newType o ≠ "" := by
  simp only [List.mem_cons, List.mem_singleton, List.not_mem_nil, or_false] at h
  unfold newType
  rcases h with h | h | h | h | h | h <;> rw [h] <;> decide

end processor

open processor in
/-- C7: for a format among `jpeg`, `png`, `webp`, `tiff`, `jpg`, `tif`, and
encoders whose output is detected as the format they write, every buffer that
`Process` returns is detected as the normalized format; and when the conversion
call of the run returns a buffer detected as anything else, `Process` returns
the conversion error and no buffer. -/
theorem Process_format_roundtrip (E : Engine) (it : ImageTransformer)
    (hfmt : it.options.Format ∈ ["jpeg", "png", "webp", "tiff", "jpg", "tif"])
    (henc : E.EncodersFaithful) :
    (∀ out, (ImageTransformer.Process E it).1 = .ok out →
      E.DetermineImageTypeName out = newType it.options) ∧
    (∀ b t c, EngineCall.Convert b t ∈ (ImageTransformer.Process E it).2 →
      E.Convert b t = .ok c → E.DetermineImageTypeName c ≠ newType it.options →
      (ImageTransformer.Process E it).1 = .error (Error.new "unknown conversion error")) := by
  obtain ⟨hsup, hnt⟩ := newType_supported it.options hfmt
  refine ⟨?_, ?_⟩
  · intro out hout
    obtain ⟨b1, b2, b3, b4, -, -, -, h4, h5⟩ := Process_ok E it out hout
    have hdet := conversionStage_ok E it.options b3 b4 hnt h4
    obtain ⟨src, -, henc5⟩ := addFilters_ok E b4 it.options out h5
    rw [hdet] at henc5
    exact encodeImage_detect E henc _ _ out hsup henc5
  · intro b t c hmem hc hdet
    rcases mem_Process E it _ hmem with h | ⟨b1, h1, h | ⟨b2, h2, h | ⟨b3, h3, h | ⟨b4, -, h⟩⟩⟩⟩
    · cases h
    · rw [resizeStage_snd] at h
      split_ifs at h <;> simp at h
    · rw [cropStage_snd] at h
      split_ifs at h <;> simp at h
    · have hb := (mem_conversionStage E it.options b3 _ h).1
      simp only [EngineCall.Convert.injEq] at hb
      obtain ⟨rfl, -⟩ := hb
      exact Process_of_conversion_error E it b1 b2 b _ h1 h2 h3
        (conversionStage_mismatch E it.options b c t h hc hdet)
    · have := mem_addFilters E b4 it.options _ h
      simp [EngineCall.isRaster] at this

/-- The encoders of the toy engine write the format byte it detects. -/
theorem demo.engine_faithful : demo.engine.EncodersFaithful := by
  refine ⟨?_, ?_, ?_, ?_⟩ <;>
  · intro dst b h
    simp only [demo.engine, Except.ok.injEq] at h
    subst h
    rfl

open processor in
/-- C7 on the toy engine: a JPEG buffer converted to WEBP with a grayscale
filter comes back as a buffer detected as `webp`. -/
theorem Process_format_roundtrip_witness :
    demo.engine.DetermineImageTypeName [3, 0, 7, 7]
      = newType { Rotate := 90, Format := "webp", Filters := { Grayscale := true } } :=
  (Process_format_roundtrip demo.engine
    { buf := [1, 7, 7],
      options := { Rotate := 90, Format := "webp", Filters := { Grayscale := true } } }
    (by decide) demo.engine_faithful).1 [3, 0, 7, 7] rfl

open processor in
/-- C8: the first engine call of `Process` is the call of `bimg.Image.Process`
on the input buffer, and the quality it carries is 75 when the requested
quality is zero or negative and the requested quality when that is positive,
also above 100. -/
theorem Process_first_call_quality (E : Engine) (it : ImageTransformer) :
    ∃ o : bimg.Options,
      (ImageTransformer.Process E it).2.head?
        = some (EngineCall.Process Site.orientation it.buf o) ∧
      o.Quality = (if it.options.Quality ≤ 0 then 75 else it.options.Quality) ∧
      (it.options.Quality ≤ 0 → o.Quality = 75) ∧
      (0 < it.options.Quality → o.Quality = it.options.Quality) ∧
      (100 < it.options.Quality → o.Quality = it.options.Quality) := by
  refine ⟨bimgOpts it.options, ?_, rfl, ?_, ?_, ?_⟩
  · unfold ImageTransformer.Process orientationStage
    rw [Eng.andThen_head]
  · intro h; simp [bimgOpts, h]
  · intro h; simp [bimgOpts, not_le.mpr h]
  · intro h
    have : ¬ it.options.Quality ≤ 0 := by omega
    simp [bimgOpts, this]

open processor in
/-- C8 on the toy engine: a requested quality of 250 is passed as 250. -/
theorem Process_first_call_quality_witness :
    ∃ o : bimg.Options,
      (ImageTransformer.Process demo.engine
        { buf := [1, 7, 7], options := { Quality := 250 } }).2.head?
        = some (EngineCall.Process Site.orientation [1, 7, 7] o) ∧ o.Quality = 250 :=
  have h := Process_first_call_quality demo.engine
    { buf := [1, 7, 7], options := { Quality := 250 } }
  h.elim fun o ho => ⟨o, ho.1, ho.2.2.2.2 (by decide)⟩

open processor in
/-- C9: a resize call appears in the trace of `Process` only if both resize
dimensions are positive, and it does appear, on the buffer of the first call,
when they are and the first call returned; the same for the crop call, on the
buffer the resize block returned.  A spec in which the resize pair, or the crop
pair, is not positive in both dimensions gives the same run of `Process`,
result and trace, as the spec with that pair zero: the half-specified pair adds
no call and no error. -/
theorem Process_resize_crop_guard (E : Engine) (it : ImageTransformer) :
    ((∃ b o, EngineCall.Process Site.resize b o ∈ (ImageTransformer.Process E it).2) →
      0 < it.options.Resize.Width ∧ 0 < it.options.Resize.Height) ∧
    (∀ b1, E.Process it.buf (bimgOpts it.options) = .ok b1 →
      0 < it.options.Resize.Width ∧ 0 < it.options.Resize.Height →
      EngineCall.Process Site.resize b1
        { Width := it.options.Resize.Width, Height := it.options.Resize.Height }
        ∈ (ImageTransformer.Process E it).2) ∧
    ((∃ b o, EngineCall.Process Site.crop b o ∈ (ImageTransformer.Process E it).2) →
      0 < it.options.Crop.Width ∧ 0 < it.options.Crop.Height) ∧
    (∀ b1 b2, E.Process it.buf (bimgOpts it.options) = .ok b1 →
      (resizeStage E it.options b1).1 = .ok b2 →
      0 < it.options.Crop.Width ∧ 0 < it.options.Crop.Height →
      EngineCall.Process Site.crop b2
        { Width := it.options.Crop.Width, Height := it.options.Crop.Height,
          Gravity := bimg.Gravity.GravityCentre }
        ∈ (ImageTransformer.Process E it).2) ∧
    (¬ (0 < it.options.Resize.Width ∧ 0 < it.options.Resize.Height) →
      ImageTransformer.Process E it
        = ImageTransformer.Process E { it with options := { it.options with Resize := {} } }) ∧
    (¬ (0 < it.options.Crop.Width ∧ 0 < it.options.Crop.Height) →
      ImageTransformer.Process E it
        = ImageTransformer.Process E { it with options := { it.options with Crop := {} } }) := by
  refine ⟨?_, ?_, ?_, ?_, ?_, ?_⟩
  · rintro ⟨b, o, hmem⟩
    rcases mem_Process E it _ hmem with h | ⟨b1, h1, h | ⟨b2, h2, h | ⟨b3, h3, h | ⟨b4, -, h⟩⟩⟩⟩
    · cases h
    · rw [resizeStage_snd] at h
      split_ifs at h with hc
      · exact hc
      · simp at h
    · rw [cropStage_snd] at h
      split_ifs at h <;> simp at h
    · have := (mem_conversionStage E it.options b3 _ h).1
      cases this
    · have := mem_addFilters E b4 it.options _ h
      simp [EngineCall.isRaster] at this
  · intro b1 h1 hc
    unfold ImageTransformer.Process
    rw [Eng.mem_andThen]
    right
    refine ⟨b1, h1, ?_⟩
    rw [Eng.mem_andThen]
    left
    rw [resizeStage_snd]
    simp [hc]
  · rintro ⟨b, o, hmem⟩
    rcases mem_Process E it _ hmem with h | ⟨b1, h1, h | ⟨b2, h2, h | ⟨b3, h3, h | ⟨b4, -, h⟩⟩⟩⟩
    · cases h
    · rw [resizeStage_snd] at h
      split_ifs at h <;> simp at h
    · rw [cropStage_snd] at h
      split_ifs at h with hc
      · exact hc
      · simp at h
    · have := (mem_conversionStage E it.options b3 _ h).1
      cases this
    · have := mem_addFilters E b4 it.options _ h
      simp [EngineCall.isRaster] at this
  · intro b1 b2 h1 h2 hc
    unfold ImageTransformer.Process
    rw [Eng.mem_andThen]
    right
    refine ⟨b1, h1, ?_⟩
    rw [Eng.mem_andThen]
    right
    refine ⟨b2, h2, ?_⟩
    rw [Eng.mem_andThen]
    left
    rw [cropStage_snd]
    simp [hc]
  · intro hc
    have hr : ∀ b, resizeStage E it.options b
        = resizeStage E { it.options with Resize := {} } b := by
      intro b
      unfold resizeStage
      simp [hc]
    unfold ImageTransformer.Process
    simp only [hr]
    rfl
  · intro hc
    have hr : ∀ b, cropStage E it.options b
        = cropStage E { it.options with Crop := {} } b := by
      intro b
      unfold cropStage
      simp [hc]
    unfold ImageTransformer.Process
    simp only [hr]
    rfl

open processor in
/-- C10, on the code: `Process` calls `addFilters` without a condition.  For a
spec with no filter set, once the first four blocks have returned `b4`, the
run decodes `b4`; when the decoding fails `Process` fails, and otherwise it
draws the empty chain and returns what `encodeImage` writes, not `b4`. -/
theorem Process_no_filters_reencodes (E : Engine) (it : ImageTransformer) (b1 b2 b3 b4 : Bytes)
    (hg : it.options.Filters.Grayscale = false) (hs : it.options.Filters.Sepia = false)
    (hgam : ¬ 0 < it.options.Filters.Gamma) (hblur : ¬ 0 < it.options.Filters.GaussianBlur)
    (h1 : E.Process it.buf (bimgOpts it.options) = .ok b1)
    (h2 : (resizeStage E it.options b1).1 = .ok b2)
    (h3 : (cropStage E it.options b2).1 = .ok b3)
    (h4 : (conversionStage E it.options b3).1 = .ok b4) :
    EngineCall.Decode b4 ∈ (ImageTransformer.Process E it).2 ∧
    (∀ e, E.Decode b4 = .error e → (ImageTransformer.Process E it).1 = .error e) ∧
    (∀ src, E.Decode b4 = .ok src →
      EngineCall.Draw [] src ∈ (ImageTransformer.Process E it).2 ∧
      (ImageTransformer.Process E it).1
        = (encodeImage E (E.Draw [] src) (E.DetermineImageTypeName b4)).1) := by
  have hchain : filterChain it.options.Filters = [] := by
    simp [filterChain, hg, hs, hgam, hblur]
  rw [Process_of_stages E it b1 b2 b3 b4 h1 h2 h3 h4]
  unfold addFilters
  simp only [hchain]
  refine ⟨?_, ?_, ?_⟩
  · simp only [List.mem_append, Eng.mem_andThen]
    right; right; right; right; left
    simp [Eng.call]
  · intro e he
    rw [Eng.andThen_of_error _ _ e (by simpa [Eng.call] using he)]
  · intro src hsrc
    rw [Eng.andThen_of_ok _ _ src (by simpa [Eng.call] using hsrc)]
    rw [Eng.andThen_of_ok _ _ (E.Draw [] src) rfl]
    refine ⟨?_, rfl⟩
    simp [Eng.call]

open processor in
/-- C10 on the toy engine: for the spec with nothing set, the conversion block
returns the buffer `[1, 7, 7]` and `Process` decodes it and returns the
re-encoded `[1, 0, 7, 7]`. -/
theorem Process_no_filters_reencodes_witness :
    EngineCall.Decode [1, 7, 7]
      ∈ (ImageTransformer.Process demo.engine { buf := [1, 7, 7], options := {} }).2 ∧
    (conversionStage demo.engine {} [1, 7, 7]).1 = .ok [1, 7, 7] ∧
    (ImageTransformer.Process demo.engine { buf := [1, 7, 7], options := {} }).1
      = .ok [1, 0, 7, 7] :=
  have h := Process_no_filters_reencodes demo.engine { buf := [1, 7, 7], options := {} }
    [1, 7, 7] [1, 7, 7] [1, 7, 7] [1, 7, 7] rfl rfl (by decide) (by decide) rfl rfl rfl rfl
  ⟨h.1, rfl, (h.2.2 { width := 2, height := 1, pix := [7, 7] } rfl).2⟩

open processor in
/-- C9 on the toy engine: a spec with only `resize.width` set runs as the spec
with no resize. -/
theorem Process_resize_crop_guard_witness :
    ImageTransformer.Process demo.engine
        { buf := [1, 7, 7], options := { Resize := { Width := 100 } } }
      = ImageTransformer.Process demo.engine { buf := [1, 7, 7], options := {} } :=
  (Process_resize_crop_guard demo.engine
    { buf := [1, 7, 7], options := { Resize := { Width := 100 } } }).2.2.2.2.1 (by decide)

/-! ## Pagination -/

/-- The empty string is no integer for `strconv.Atoi`. -/
theorem Atoi_empty : strconv.Atoi "" = none := by rfl

/-- A string that `strconv.Atoi` reads is not empty. -/
theorem Atoi_some_ne_empty (s : String) (n : Int) (h : strconv.Atoi s = some n) : s ≠ "" := by
  intro hs
  rw [hs, Atoi_empty] at h
  cases h

/-- A query without a repeated key has as many keys as pairs. -/
theorem Values_len_of_nodup (q : url.Values) (h : (q.map Prod.fst).Nodup) :
    q.len = q.length := by
  unfold url.Values.len
  rw [List.Nodup.dedup h, List.length_map]

/-- C13, as stated, fails: the query `page=1&limit=5&limit=7` has three
key=value pairs and two keys, and `Parse` accepts it. -/
theorem Parse_pair_count_counterexample :
    ¬ (∀ (pp : store.PaginationParams) (q : url.Values),
        q.length ≠ 2 → pp.Parse q = (pp, some Error.ErrBadQuery)) := by
  intro h
  have h1 := h ⟨1, 10⟩ [("page", "1"), ("limit", "5"), ("limit", "7")] (by decide)
  have h2 : store.PaginationParams.Parse ⟨1, 10⟩ [("page", "1"), ("limit", "5"), ("limit", "7")]
      = (⟨1, 5⟩, none) := by rfl
  rw [h2] at h1
  cases h1

/-- A query whose number of keys is not two is rejected, and the receiver comes
back unchanged. -/
theorem Parse_of_len_ne (pp : store.PaginationParams) (q : url.Values) (h : q.len ≠ 2) :
    pp.Parse q = (pp, some Error.ErrBadQuery) := by
  unfold store.PaginationParams.Parse
  simp [h]

/-- `Parse` returns no error on a query of two keys. -/
theorem Parse_two_keys_no_error (pp : store.PaginationParams) (q : url.Values)
    (h : q.len = 2) : (pp.Parse q).2 = none := by
  unfold store.PaginationParams.Parse
  simp only [h, ne_eq, not_true_eq_false, if_false]
  split_ifs <;> (repeat' split) <;> simp_all

/-- C13, amended: for every query whose number of distinct keys is not two,
`Parse` returns `ErrBadQuery` and the receiver unchanged; for a query without a
repeated key that is every query whose number of key=value pairs is not two;
and a query of two distinct keys, however many pairs it has, is accepted. -/
theorem Parse_key_count (pp : store.PaginationParams) (q : url.Values) :
    (q.len ≠ 2 → pp.Parse q = (pp, some Error.ErrBadQuery)) ∧
    ((q.map Prod.fst).Nodup → q.length ≠ 2 → pp.Parse q = (pp, some Error.ErrBadQuery)) ∧
    (q.len = 2 → (pp.Parse q).2 = none) := by
  refine ⟨Parse_of_len_ne pp q, ?_, Parse_two_keys_no_error pp q⟩
  intro hnd hlen
  apply Parse_of_len_ne
  rw [Values_len_of_nodup q hnd]
  exact hlen

/-- Scenario D: zero, one and three query parameters. -/
theorem Parse_key_count_witness :
    store.PaginationParams.Parse ⟨1, 10⟩ [] = (⟨1, 10⟩, some Error.ErrBadQuery) ∧
    store.PaginationParams.Parse ⟨1, 10⟩ [("page", "2")] = (⟨1, 10⟩, some Error.ErrBadQuery) ∧
    store.PaginationParams.Parse ⟨1, 10⟩ [("page", "2"), ("limit", "5"), ("sort", "asc")]
      = (⟨1, 10⟩, some Error.ErrBadQuery) :=
  ⟨(Parse_key_count ⟨1, 10⟩ []).1 (by decide),
   (Parse_key_count ⟨1, 10⟩ [("page", "2")]).1 (by decide),
   (Parse_key_count ⟨1, 10⟩ [("page", "2"), ("limit", "5"), ("sort", "asc")]).2.1
     (by decide) (by decide)⟩

/-- C14, as stated, fails: the query `foo=1&bar=2` has neither `page` nor
`limit`, and `Parse` accepts it. -/
theorem Parse_names_counterexample :
    ¬ (∀ (pp : store.PaginationParams) (q : url.Values),
        (pp.Parse q).2 = none → ∀ k ∈ q.map Prod.fst, k = "page" ∨ k = "limit") := by
  intro h
  have h1 := h ⟨1, 10⟩ [("foo", "1"), ("bar", "2")] (by rfl) "foo" (by decide)
  revert h1
  decide

/-- C14, amended: `Parse` accepts a query exactly when the query has two
distinct keys, whatever their names; when the values of `limit` and `page` are
integers the returned `Limit` and `PageID` are those integers; and a query of
two keys in which `limit` and `page` have no value is accepted with the
receiver unchanged. -/
theorem Parse_accepts (pp : store.PaginationParams) (q : url.Values) :
    ((pp.Parse q).2 = none ↔ q.len = 2) ∧
    (∀ l p, q.len = 2 → strconv.Atoi (q.Get "limit") = some l →
      strconv.Atoi (q.Get "page") = some p → pp.Parse q = (⟨p, l⟩, none)) ∧
    (q.len = 2 → q.Get "limit" = "" → q.Get "page" = "" → pp.Parse q = (pp, none)) := by
  refine ⟨⟨?_, Parse_two_keys_no_error pp q⟩, ?_, ?_⟩
  · intro h
    by_contra hlen
    have := Parse_of_len_ne pp q hlen
    rw [this] at h
    cases h
  · intro l p hlen hl hp
    have hl0 := Atoi_some_ne_empty _ _ hl
    have hp0 := Atoi_some_ne_empty _ _ hp
    unfold store.PaginationParams.Parse
    simp [hlen, hl, hp, hl0, hp0]
  · intro hlen hl hp
    unfold store.PaginationParams.Parse
    simp [hlen, hl, hp]

/-- Scenario D, the accepted case: `page=2&limit=5` gives page 2 and limit 5;
and `foo=1&bar=2` is accepted with the defaults. -/
theorem Parse_accepts_witness :
    store.PaginationParams.Parse ⟨1, 10⟩ [("page", "2"), ("limit", "5")] = (⟨2, 5⟩, none) ∧
    store.PaginationParams.Parse ⟨1, 10⟩ [("foo", "1"), ("bar", "2")] = (⟨1, 10⟩, none) :=
  ⟨(Parse_accepts ⟨1, 10⟩ [("page", "2"), ("limit", "5")]).2.1 5 2 (by decide) (by rfl) (by rfl),
   (Parse_accepts ⟨1, 10⟩ [("foo", "1"), ("bar", "2")]).2.2 (by decide) (by rfl) (by rfl)⟩

/-- C19, as stated, fails: in the query `limit=&page=3` the key `limit` is
present with a value that is no integer, and `Parse` goes on to read `page`
and returns page 3. -/
theorem Parse_empty_limit_counterexample :
    ¬ (∀ (pp : store.PaginationParams) (q : url.Values),
        q.len = 2 → "limit" ∈ q.map Prod.fst → strconv.Atoi (q.Get "limit") = none →
        pp.Parse q = (pp, none)) := by
  intro h
  have h1 := h ⟨1, 10⟩ [("limit", ""), ("page", "3")] (by decide) (by decide) (by rfl)
  have h2 : store.PaginationParams.Parse ⟨1, 10⟩ [("limit", ""), ("page", "3")]
      = (⟨3, 10⟩, none) := by rfl
  rw [h2] at h1
  cases h1

/-- C19, amended: on a query of exactly two distinct keys `Parse` returns no
error; when `limit` has a non-empty value that is no integer, `Parse` returns
the receiver unchanged, whatever `page` is; when `limit` has an integer value
and the value of `page` is no integer, `Parse` returns the receiver with
`Limit` updated and `PageID` unchanged; when the value of `limit` is empty,
`limit` is skipped and an integer value of `page` is parsed into `PageID`. -/
theorem Parse_non_integer (pp : store.PaginationParams) (q : url.Values) (h : q.len = 2) :
    (pp.Parse q).2 = none ∧
    (q.Get "limit" ≠ "" → strconv.Atoi (q.Get "limit") = none → pp.Parse q = (pp, none)) ∧
    (∀ l, strconv.Atoi (q.Get "limit") = some l → strconv.Atoi (q.Get "page") = none →
      pp.Parse q = ({ pp with Limit := l }, none)) ∧
    (∀ p, q.Get "limit" = "" → strconv.Atoi (q.Get "page") = some p →
      pp.Parse q = ({ pp with PageID := p }, none)) := by
  refine ⟨Parse_two_keys_no_error pp q h, ?_, ?_, ?_⟩
  · intro hne hl
    unfold store.PaginationParams.Parse
    simp [h, hne, hl]
  · intro l hl hp
    have hl0 := Atoi_some_ne_empty _ _ hl
    unfold store.PaginationParams.Parse
    simp only [h, ne_eq, not_true_eq_false, if_false, hl0, not_false_eq_true, if_true, hl, hp]
    split_ifs <;> rfl
  · intro p hl hp
    have hp0 := Atoi_some_ne_empty _ _ hp
    unfold store.PaginationParams.Parse
    simp [h, hl, hp, hp0]

/-- The amended C19 on two queries: `limit=abc&page=3` leaves page 1 and limit
10, and `limit=5&page=x` gives limit 5 and leaves page 1. -/
theorem Parse_non_integer_witness :
    store.PaginationParams.Parse ⟨1, 10⟩ [("limit", "abc"), ("page", "3")] = (⟨1, 10⟩, none) ∧
    store.PaginationParams.Parse ⟨1, 10⟩ [("limit", "5"), ("page", "x")] = (⟨1, 5⟩, none) :=
  ⟨(Parse_non_integer ⟨1, 10⟩ [("limit", "abc"), ("page", "3")] (by decide)).2.1
     (by decide) (by rfl),
   (Parse_non_integer ⟨1, 10⟩ [("limit", "5"), ("page", "x")] (by decide)).2.2.1 5
     (by rfl) (by rfl)⟩

/-- A value in the range of `int` is its own value in `int`. -/
theorem wrapInt64_of_range (n : Int) (h1 : -9223372036854775808 ≤ n)
    (h2 : n ≤ 9223372036854775807) : wrapInt64 n = n := by
  unfold wrapInt64
  omega

/-- C20, as stated, fails: page 4611686018427387905 with limit 2 passes the
validation, and the offset wraps to the least `int`, a negative number. -/
theorem offset_wraps_counterexample :
    ¬ (∀ pp : store.PaginationParams, pp.validate = none →
        pp.PageID ≤ 9223372036854775807 → pp.Limit ≤ 9223372036854775807 →
        0 ≤ store.offset pp ∧ store.offset pp = (pp.PageID - 1) * pp.Limit) := by
  intro h
  have h1 := (h ⟨4611686018427387905, 2⟩ (by decide) (by decide) (by decide)).1
  revert h1
  decide

/-- C20, amended: for parameters that pass the validation and whose product
`(PageID - 1) * Limit` does not exceed the largest `int`, the offset that
`GetUserImages` passes to the query is that product, the number of rows on the
pages before, and is not negative; it is 0 for page 1. -/
theorem offset_of_valid (pp : store.PaginationParams) (w : World) (userID : Int)
    (hv : pp.validate = none) (hp : pp.PageID ≤ 9223372036854775807)
    (hprod : (pp.PageID - 1) * pp.Limit ≤ 9223372036854775807) :
    store.offset pp = (pp.PageID - 1) * pp.Limit ∧ 0 ≤ store.offset pp ∧
    (pp.PageID = 1 → store.offset pp = 0) ∧
    (store.ImageStore.GetUserImages userID pp w).2.log
      = w.log ++ [Call.dbGetUserImages userID pp.Limit ((pp.PageID - 1) * pp.Limit)] := by
  have hge : 1 ≤ pp.PageID ∧ 1 ≤ pp.Limit := by
    unfold store.PaginationParams.validate at hv
    by_contra hc
    simp [hc] at hv
  have h0 : 0 ≤ (pp.PageID - 1) * pp.Limit :=
    Int.mul_nonneg (by omega) (by omega)
  have hoff : store.offset pp = (pp.PageID - 1) * pp.Limit := by
    unfold store.offset
    rw [wrapInt64_of_range (pp.PageID - 1) (by omega) (by omega)]
    exact wrapInt64_of_range _ (by omega) hprod
  refine ⟨hoff, by rw [hoff]; exact h0, ?_, ?_⟩
  · intro h1
    rw [hoff, h1]
    simp
  · unfold store.ImageStore.GetUserImages
    rw [hoff]
    cases w.dbFault <;> simp only [] <;> (try split) <;> simp [World.record]

/-- The amended C20 on page 3 with limit 10: the offset is 20. -/
theorem offset_of_valid_witness :
    store.offset ⟨3, 10⟩ = (3 - 1) * 10 ∧ 0 ≤ store.offset ⟨3, 10⟩ :=
  have h := offset_of_valid ⟨3, 10⟩ demo.world 1 (by decide) (by decide) (by decide)
  ⟨h.1, h.2.1⟩

/-! ## The blob store adapter -/

/-- A filename without a second piece makes `UploadImage` and `UpdateImage`
panic before any bucket call. -/
theorem bucket_no_second_piece (L : Env) (filename : String) (buf : Bytes) (w : World)
    (h : (supabase.Split filename).get? 1 = none) :
    supabase.ImageBucket.UploadImage L filename buf w
      = (.panicked "index out of range [1] with length 1", w) ∧
    supabase.ImageBucket.UpdateImage filename buf w
      = (.panicked "index out of range [1] with length 1", w) := by
  unfold supabase.ImageBucket.UploadImage supabase.ImageBucket.UpdateImage
  rw [h]
  exact ⟨rfl, rfl⟩

/-- A filename whose second piece, after the mapping of `jpg` and `tif`, is no
key of `ImageMIMETypes` makes `UploadImage` and `UpdateImage` return the format
error without a bucket call. -/
theorem bucket_unrecognized_second_piece (L : Env) (filename ext : String) (buf : Bytes)
    (w : World) (h : (supabase.Split filename).get? 1 = some ext)
    (hm : supabase.ImageMIMETypes
      (if (if ext = "jpg" then "jpeg" else ext) = "tif" then "tiff"
        else (if ext = "jpg" then "jpeg" else ext)) = none) :
    supabase.ImageBucket.UploadImage L filename buf w
      = (.returned (.error (Error.new "unsoported/bad image format")), w) ∧
    supabase.ImageBucket.UpdateImage filename buf w
      = (.returned (some (Error.new "unsoported/bad image format")), w) := by
  unfold supabase.ImageBucket.UploadImage supabase.ImageBucket.UpdateImage
  rw [h]
  simp only [hm]
  exact ⟨trivial, trivial⟩

/-- A filename whose second piece is one of the six recognized names is
uploaded under the key `uploaded_` followed by the filename, with the type of
the normalized piece, and the signed URL of that key is returned, when the
bucket has no fault. -/
theorem UploadImage_recognized_second_piece (L : Env) (filename ext ct : String)
    (buf : Bytes) (w : World) (h : (supabase.Split filename).get? 1 = some ext)
    (hm : supabase.ImageMIMETypes
      (if (if ext = "jpg" then "jpeg" else ext) = "tif" then "tiff"
        else (if ext = "jpg" then "jpeg" else ext)) = some ct)
    (hf : w.bucketFault = none) :
    (supabase.ImageBucket.UploadImage L filename buf w).1
      = .returned (.ok ("uploaded_" ++ filename,
          L.signedURL ("uploaded_" ++ filename) supabase.urlDuration)) ∧
    (supabase.ImageBucket.UploadImage L filename buf w).2.log
      = w.log ++ [Call.bucketUploadFile ("uploaded_" ++ filename) buf ct,
          Call.bucketCreateSignedUrl ("uploaded_" ++ filename) supabase.urlDuration] := by
  unfold supabase.ImageBucket.UploadImage
  rw [h]
  simp [hm, supabase.UploadFile, supabase.CreateSignedUrl, hf, World.record]

/-- C15, on the code: the extension is taken as `strings.Split(filename,
".")[1]`.  A filename without a dot makes `UploadImage` and `UpdateImage` panic
on the index instead of returning an error, and a filename such as
`photo.png.exe`, whose extension `exe` is not recognized, is uploaded as
`image/png` with two bucket calls, and replaced as `image/png` with one. -/
theorem bucket_extension_index :
    supabase.ImageBucket.UploadImage demo.env "README" [1] demo.world
      = (.panicked "index out of range [1] with length 1", demo.world) ∧
    supabase.ImageBucket.UpdateImage "README" [1] demo.world
      = (.panicked "index out of range [1] with length 1", demo.world) ∧
    (supabase.ImageBucket.UploadImage demo.env "photo.png.exe" [1] demo.world).2.log
      = [Call.bucketUploadFile "uploaded_photo.png.exe" [1] "image/png",
         Call.bucketCreateSignedUrl "uploaded_photo.png.exe" 21600] ∧
    (supabase.ImageBucket.UpdateImage "photo.png.exe" [1] demo.world).2.log
      = [Call.bucketUpdateFile "photo.png.exe" [1] "image/png"] :=
  ⟨rfl, rfl, by decide, by decide⟩

/-- C16, on the code: the filename `my.cat.jpg` has the extension `jpg` after
its last dot, and `UploadImage` looks at the piece `cat` after its first dot and
returns the format error without a bucket call; `cat.jpg` is stored as
`uploaded_cat.jpg` with the type `image/jpeg`. -/
theorem UploadImage_two_dots :
    supabase.ImageBucket.UploadImage demo.env "my.cat.jpg" [1] demo.world
      = (.returned (.error (Error.new "unsoported/bad image format")), demo.world) ∧
    (supabase.ImageBucket.UploadImage demo.env "cat.jpg" [1] demo.world).1
      = .returned (.ok ("uploaded_cat.jpg", "https://bucket/uploaded_cat.jpg?token=t")) ∧
    (supabase.ImageBucket.UploadImage demo.env "cat.jpg" [1] demo.world).2.log
      = [Call.bucketUploadFile "uploaded_cat.jpg" [1] "image/jpeg",
         Call.bucketCreateSignedUrl "uploaded_cat.jpg" 21600] :=
  ⟨rfl, rfl, by decide⟩

/-! ## The transform pipeline: orientation, identity spec, failures -/

open processor in
/-- C18, a defect of the code: the first engine call of `Process` is the one
call made at the orientation site, on the input buffer, with the request's
`rotate` and the quality, but the two mirror fields reach the engine swapped.
The request's `flip`, which the source comments as the mirror about the X axis
(the engine's `Flip`), sets the engine's `Flop`, and the request's `mirror`,
commented as the mirror about the Y axis (the engine's `Flop`), sets the
engine's `Flip`; the methods `Flip` and `Mirror` of the transformer repeat the
swap.  On the toy engine a request with `flip` alone makes the first call with
`Flop` set and `Flip` not set, a request with `mirror` alone makes it with
`Flip` set and `Flop` not set, so the pairing of the comments, `Flip` from
`flip` and `Flop` from `mirror`, does not hold of the code. -/
theorem Process_first_call_orientation (E : Engine) (it : ImageTransformer) :
    (∃ o : bimg.Options,
      (ImageTransformer.Process E it).2.head?
        = some (EngineCall.Process Site.orientation it.buf o) ∧
      (∀ b o2, EngineCall.Process Site.orientation b o2 ∈ (ImageTransformer.Process E it).2 →
        b = it.buf ∧ o2 = o) ∧
      (o.Flop = true ↔ it.options.Flip = true) ∧
      (o.Flip = true ↔ it.options.Mirror = true) ∧
      o.Rotate = it.options.Rotate ∧
      o.Quality = (if it.options.Quality ≤ 0 then 75 else it.options.Quality)) ∧
    ImageTransformer.Flip E it = E.Process it.buf { Flop := true } ∧
    ImageTransformer.Mirror E it = E.Process it.buf { Flip := true } ∧
    (ImageTransformer.Process demo.engine
        { buf := [1, 7, 7], options := { Flip := true } }).2.head?
      = some (EngineCall.Process Site.orientation [1, 7, 7]
          { Flop := true, Flip := false, Quality := 75 }) ∧
    (ImageTransformer.Process demo.engine
        { buf := [1, 7, 7], options := { Mirror := true } }).2.head?
      = some (EngineCall.Process Site.orientation [1, 7, 7]
          { Flop := false, Flip := true, Quality := 75 }) ∧
    ¬ (∀ (E2 : Engine) (it2 : ImageTransformer), ∃ o : bimg.Options,
        (ImageTransformer.Process E2 it2).2.head?
          = some (EngineCall.Process Site.orientation it2.buf o) ∧
        o.Flip = it2.options.Flip ∧ o.Flop = it2.options.Mirror) := by
  refine ⟨⟨bimgOpts it.options, ?_, ?_, Iff.rfl, Iff.rfl, rfl, rfl⟩, rfl, rfl, rfl, rfl, ?_⟩
  · unfold ImageTransformer.Process orientationStage
    rw [Eng.andThen_head]
  · intro b o2 hmem
    rcases mem_Process E it _ hmem with h | ⟨b1, -, h | ⟨b2, -, h | ⟨b3, -, h | ⟨b4, -, h⟩⟩⟩⟩
    · simp only [EngineCall.Process.injEq, true_and] at h
      exact h
    · rw [resizeStage_snd] at h
      split_ifs at h <;> simp at h
    · rw [cropStage_snd] at h
      split_ifs at h <;> simp at h
    · have := (mem_conversionStage E it.options b3 _ h).1
      cases this
    · have := mem_addFilters E b4 it.options _ h
      simp [EngineCall.isRaster] at this
  · intro h
    obtain ⟨o, ho, hflip, -⟩ := h demo.engine { buf := [1, 7, 7], options := { Flip := true } }
    have h2 : (ImageTransformer.Process demo.engine
        { buf := [1, 7, 7], options := { Flip := true } }).2.head?
        = some (EngineCall.Process Site.orientation [1, 7, 7] { Flop := true, Quality := 75 }) := by
      rfl
    rw [h2] at ho
    simp only [Option.some.injEq, EngineCall.Process.injEq, true_and] at ho
    rw [← ho] at hflip
    revert hflip
    decide

open processor in
/-- The defect of C18 on the toy engine: the request with `flip` alone gives
the first call the option `Flop`, the engine's horizontal mirror. -/
theorem Process_first_call_orientation_witness :
    ∃ o : bimg.Options,
      (ImageTransformer.Process demo.engine
        { buf := [1, 7, 7], options := { Flip := true } }).2.head?
        = some (EngineCall.Process Site.orientation [1, 7, 7] o) ∧ o.Flop = true :=
  (Process_first_call_orientation demo.engine
    { buf := [1, 7, 7], options := { Flip := true } }).1.elim
    fun o ho => ⟨o, ho.1, ho.2.2.1.mpr rfl⟩

namespace processor

/-- On a format name that is none of its six cases `encodeImage` fails without
an encoder call. -/
theorem encodeImage_unknown (E : Engine) (dst : Raster) (f : String)
    (h : f ∉ ["jpeg", "jpg", "png", "webp", "tiff", "tif"]) :
    encodeImage E dst f = (.error (Error.new "unsuported/bad image format"), []) := by
  simp only [List.mem_cons, List.mem_singleton, List.not_mem_nil, or_false, not_or] at h
  unfold encodeImage
  simp [h.1, h.2.1, h.2.2.1, h.2.2.2.1, h.2.2.2.2.1, h.2.2.2.2.2, Eng.fail]

/-- On a buffer detected as none of the six names `addFilters` fails. -/
theorem addFilters_unknown (E : Engine) (b : Bytes) (o : Transformer)
    (h : E.DetermineImageTypeName b ∉ ["jpeg", "jpg", "png", "webp", "tiff", "tif"]) :
    ∃ e, (addFilters E b o).1 = .error e := by
  cases hres : (addFilters E b o).1 with
  | error e => exact ⟨e, rfl⟩
  | ok out =>
    obtain ⟨src, -, henc⟩ := addFilters_ok E b o out hres
    rw [encodeImage_unknown E _ _ h] at henc
    cases henc

/-- An empty format stays empty under the mapping of `jpg` and `tif`. -/
theorem newType_of_empty (o : Transformer) (h : o.Format = "") : newType o = "" := by
  unfold newType
  rw [h]
  decide

/-- The resize, crop and conversion blocks return their input for a spec that
asks for none of them. -/
theorem identity_stages (E : Engine) (q : Int) (b : Bytes) :
    resizeStage E { Quality := q } b = Eng.ret b ∧
    cropStage E { Quality := q } b = Eng.ret b ∧
    conversionStage E { Quality := q } b = Eng.ret b := by
  refine ⟨?_, ?_, ?_⟩
  · unfold resizeStage; simp
  · unfold cropStage; simp
  · have hn : newType { Quality := q } = "" := newType_of_empty _ rfl
    unfold conversionStage
    simp [hn]

end processor

open processor in
/-- C11, on the code: for a spec that asks for nothing but a quality, the
filter stage still runs on the buffer `b1` of the first engine call.  When `b1`
is detected as a format outside the names `encodeImage` knows (a GIF, say),
`Process` returns an error and no buffer; when `b1` is detected as one of
`jpeg`, `png`, `webp`, `tiff` and the encoders write what the engine detects,
a returned buffer is detected as the format of `b1`. -/
theorem Process_identity_spec (E : Engine) (buf : Bytes) (q : Int) (b1 : Bytes)
    (h1 : E.Process buf (bimgOpts { Quality := q }) = .ok b1) :
    (E.DetermineImageTypeName b1 ∉ ["jpeg", "jpg", "png", "webp", "tiff", "tif"] →
      ∃ e, (ImageTransformer.Process E { buf := buf, options := { Quality := q } }).1
        = .error e) ∧
    (E.EncodersFaithful → E.DetermineImageTypeName b1 ∈ ["jpeg", "png", "webp", "tiff"] →
      ∀ out, (ImageTransformer.Process E { buf := buf, options := { Quality := q } }).1
        = .ok out → E.DetermineImageTypeName out = E.DetermineImageTypeName b1) := by
  obtain ⟨hr, hc, hv⟩ := identity_stages E q b1
  have hrun := Process_of_stages E { buf := buf, options := { Quality := q } } b1 b1 b1 b1 h1
    (by rw [hr]; rfl) (by rw [hc]; rfl) (by rw [hv]; rfl)
  rw [hrun]
  refine ⟨?_, ?_⟩
  · intro hfmt
    exact addFilters_unknown E b1 _ hfmt
  · intro henc hfmt out hout
    obtain ⟨src, -, h5⟩ := addFilters_ok E b1 _ out hout
    exact encodeImage_detect E henc _ _ out hfmt h5

open processor in
/-- C11 on the second toy engine: a GIF buffer, which the vector engine takes,
with the spec that asks for nothing, makes `Process` fail. -/
theorem Process_identity_spec_witness :
    ∃ e, (ImageTransformer.Process demo.gifEngine { buf := [5, 7, 7], options := {} }).1
      = .error e :=
  (Process_identity_spec demo.gifEngine [5, 7, 7] 0 [5, 7, 7] rfl).1 (by decide)

/-- The download changes the world by its log entry only. -/
theorem StreamImage_frame (filename : String) (w : World) :
    (supabase.ImageBucket.StreamImage filename w).2 = w.record (.bucketDownloadFile filename) := by
  unfold supabase.ImageBucket.StreamImage supabase.DownloadFile
  cases w.bucketFault <;> simp only []
  cases w.blobs.find? _ <;> rfl

/-- The handler up to the pipeline: when the resolver, the owner check, the
download, the body and the validation pass, the handler is decided by the
result of `Process` on the downloaded buffer. -/
theorem transformImageHandler_at_Process (app : application) (r : Request) (w : World)
    (id : Int) (image : store.Image) (buf : Bytes) (payload : Transformations)
    (hid : r.imageID = .ok id)
    (himg : (app.getImage id w).1 = .ok image)
    (hown : image.UserID = r.user.ID)
    (hbuf : (supabase.ImageBucket.StreamImage image.Filename (app.getImage id w).2).1 = .ok buf)
    (hpay : r.payload = .ok payload) (hval : r.validateErr = none) :
    app.transformImageHandler r w =
      match (processor.ImageTransformer.Process app.engine
        { buf := buf, options := application.toOptions payload }).1 with
      | .error err =>
        ([.internalServerError err],
          (app.getImage id w).2.record (.bucketDownloadFile image.Filename))
      | .ok newBuf =>
        match supabase.ImageBucket.UpdateImage image.Filename newBuf
          ((app.getImage id w).2.record (.bucketDownloadFile image.Filename)) with
        | (.panicked msg, w3) => ([.recovered msg], w3)
        | (.returned (some err), w3) => ([.internalServerError err], w3)
        | (.returned none, w3) =>
          match store.ImageStore.Update
            { image with UpdatedAt := app.env.formatRFC3339 w3.now } w3 with
          | (some err, w4) => ([.internalServerError err], w4)
          | (none, w4) =>
            match r.writeErr with
            | some err =>
              ([.jsonResponse 200 { image with UpdatedAt := app.env.formatRFC3339 w3.now },
                .internalServerError err], w4)
            | none =>
              ([.jsonResponse 200 { image with UpdatedAt := app.env.formatRFC3339 w3.now }], w4)
    := by
  have hs := StreamImage_frame image.Filename (app.getImage id w).2
  unfold application.transformImageHandler
  simp only [hid]
  rcases hg : app.getImage id w with ⟨res, w1⟩
  rw [hg] at himg hbuf hs
  simp only at himg hbuf hs
  subst himg
  simp only [hown, ne_eq, not_true_eq_false, if_false]
  rcases hst : supabase.ImageBucket.StreamImage image.Filename w1 with ⟨res2, w2⟩
  rw [hst] at hbuf hs
  simp only at hbuf hs
  subst hbuf hs
  simp only [hpay, hval]

open processor in
/-- C12: a failing block ends `Process` there.  When the first engine call,
the resize block, the crop block or the conversion block fails, `Process`
returns that error, no buffer, and the trace stops with the failing block: no
later engine call and no raster call is made; when `addFilters` fails,
`Process` returns its error.  And when the handler has reached the pipeline and
`Process` returns an error, the handler answers with the server error alone,
logs no mutating call to the bucket or the table after the download, and
leaves the bucket and the table unchanged. -/
theorem Process_failure_not_persisted :
    (∀ (E : Engine) (it : ImageTransformer) (e : Error),
      E.Process it.buf (bimgOpts it.options) = .error e →
      ImageTransformer.Process E it = (.error e, (orientationStage E it).2)) ∧
    (∀ (E : Engine) (it : ImageTransformer) (b1 : Bytes) (e : Error),
      E.Process it.buf (bimgOpts it.options) = .ok b1 →
      (resizeStage E it.options b1).1 = .error e →
      ImageTransformer.Process E it
        = (.error e, (orientationStage E it).2 ++ (resizeStage E it.options b1).2)) ∧
    (∀ (E : Engine) (it : ImageTransformer) (b1 b2 : Bytes) (e : Error),
      E.Process it.buf (bimgOpts it.options) = .ok b1 →
      (resizeStage E it.options b1).1 = .ok b2 →
      (cropStage E it.options b2).1 = .error e →
      ImageTransformer.Process E it
        = (.error e, (orientationStage E it).2 ++ ((resizeStage E it.options b1).2 ++
            (cropStage E it.options b2).2))) ∧
    (∀ (E : Engine) (it : ImageTransformer) (b1 b2 b3 : Bytes) (e : Error),
      E.Process it.buf (bimgOpts it.options) = .ok b1 →
      (resizeStage E it.options b1).1 = .ok b2 →
      (cropStage E it.options b2).1 = .ok b3 →
      (conversionStage E it.options b3).1 = .error e →
      ImageTransformer.Process E it
        = (.error e, (orientationStage E it).2 ++ ((resizeStage E it.options b1).2 ++
            ((cropStage E it.options b2).2 ++ (conversionStage E it.options b3).2))) ∧
      ∀ c ∈ (ImageTransformer.Process E it).2, c.isRaster = false) ∧
    (∀ (E : Engine) (it : ImageTransformer) (b1 b2 b3 b4 : Bytes) (e : Error),
      E.Process it.buf (bimgOpts it.options) = .ok b1 →
      (resizeStage E it.options b1).1 = .ok b2 →
      (cropStage E it.options b2).1 = .ok b3 →
      (conversionStage E it.options b3).1 = .ok b4 →
      (addFilters E b4 it.options).1 = .error e →
      (ImageTransformer.Process E it).1 = .error e) ∧
    (∀ (app : application) (r : Request) (w : World) (id : Int) (image : store.Image)
      (buf : Bytes) (payload : Transformations) (e : Error),
      r.imageID = .ok id → (app.getImage id w).1 = .ok image → image.UserID = r.user.ID →
      (supabase.ImageBucket.StreamImage image.Filename (app.getImage id w).2).1 = .ok buf →
      r.payload = .ok payload → r.validateErr = none →
      (ImageTransformer.Process app.engine
        { buf := buf, options := application.toOptions payload }).1 = .error e →
      (app.transformImageHandler r w).1 = [Response.internalServerError e] ∧
      (∃ cs, (app.transformImageHandler r w).2.log = w.log ++ cs ∧
        ∀ c ∈ cs, c.isMutation = false) ∧
      (app.transformImageHandler r w).2.rows = w.rows ∧
      (app.transformImageHandler r w).2.blobs = w.blobs) := by
  refine ⟨?_, ?_, ?_, ?_, ?_, ?_⟩
  · intro E it e h1
    unfold ImageTransformer.Process
    rw [Eng.andThen_of_error _ _ e h1]
  · intro E it b1 e h1 h2
    unfold ImageTransformer.Process
    rw [Eng.andThen_of_ok _ _ b1 h1, Eng.andThen_of_error _ _ e h2]
  · intro E it b1 b2 e h1 h2 h3
    unfold ImageTransformer.Process
    rw [Eng.andThen_of_ok _ _ b1 h1, Eng.andThen_of_ok _ _ b2 h2,
      Eng.andThen_of_error _ _ e h3]
  · intro E it b1 b2 b3 e h1 h2 h3 h4
    have hrun : ImageTransformer.Process E it
        = (.error e, (orientationStage E it).2 ++ ((resizeStage E it.options b1).2 ++
            ((cropStage E it.options b2).2 ++ (conversionStage E it.options b3).2))) := by
      unfold ImageTransformer.Process
      rw [Eng.andThen_of_ok _ _ b1 h1, Eng.andThen_of_ok _ _ b2 h2,
        Eng.andThen_of_ok _ _ b3 h3, Eng.andThen_of_error _ _ e h4]
    refine ⟨hrun, ?_⟩
    intro c hc
    rw [hrun] at hc
    simp only [List.mem_append] at hc
    rcases hc with hc | hc | hc | hc
    · rw [orientationStage_snd] at hc
      rw [List.mem_singleton.mp hc]; rfl
    · rw [resizeStage_snd] at hc
      split_ifs at hc
      · rw [List.mem_singleton.mp hc]; rfl
      · simp at hc
    · rw [cropStage_snd] at hc
      split_ifs at hc
      · rw [List.mem_singleton.mp hc]; rfl
      · simp at hc
    · rw [(mem_conversionStage E it.options b3 c hc).1]; rfl
  · intro E it b1 b2 b3 b4 e h1 h2 h3 h4 h5
    rw [Process_of_stages E it b1 b2 b3 b4 h1 h2 h3 h4]
    exact h5
  · intro app r w id image buf payload e hid himg hown hbuf hpay hval herr
    rw [transformImageHandler_at_Process app r w id image buf payload hid himg hown hbuf hpay hval]
    simp only [herr]
    obtain ⟨⟨cs, hcs, hmut⟩, hrows, hblobs⟩ := getImage_frame app id w
    refine ⟨trivial, ⟨cs ++ [Call.bucketDownloadFile image.Filename], ?_, ?_⟩, ?_, ?_⟩
    · simp [World.record, hcs]
    · intro c hc
      rcases List.mem_append.mp hc with hc | hc
      · exact hmut c hc
      · rw [List.mem_singleton.mp hc]; rfl
    · simpa [World.record] using hrows
    · simpa [World.record] using hblobs

open processor in
/-- C12 on the sample world with caching disabled: the owner of image 5 asks
for the format `bmp`; the pipeline fails and the bucket and the table are as
before. -/
theorem Process_failure_not_persisted_witness :
    (demo.appPlain.transformImageHandler
        { demo.requestA with payload := .ok { Format := "bmp" } } demo.world).1
      = [Response.internalServerError (Error.new "unsorported image format")] ∧
    (demo.appPlain.transformImageHandler
        { demo.requestA with payload := .ok { Format := "bmp" } } demo.world).2.rows
      = demo.world.rows ∧
    (demo.appPlain.transformImageHandler
        { demo.requestA with payload := .ok { Format := "bmp" } } demo.world).2.blobs
      = demo.world.blobs :=
  have h := Process_failure_not_persisted.2.2.2.2.2 demo.appPlain
    { demo.requestA with payload := .ok { Format := "bmp" } } demo.world 5 demo.image5
    [1, 7, 7] { Format := "bmp" } (Error.new "unsorported image format")
    rfl rfl rfl rfl rfl rfl rfl
  ⟨h.1, h.2.2.1, h.2.2.2⟩

/-! ## The transform handler and the cache -/

/-- A live, readable cache entry makes the resolver return the cached record
after the cache read alone. -/
theorem getImage_hit (app : application) (N : Int) (w : World) (entry : cache.Entry)
    (r0 : store.Image)
    (hen : app.redisEnabled = true) (hfault : w.redisGetFault = none)
    (hentry : w.redis.find?
      (fun e => e.key == cache.cacheKey N && decide (w.now < e.expiresAt)) = some entry)
    (hne : entry.value ≠ "") (hunm : app.env.jsonUnmarshal entry.value = .ok r0) :
    app.getImage N w = (.ok r0, w.record (.cacheGet (cache.cacheKey N))) := by
  rw [getImage_enabled app N w hen]
  have : (cache.ImageStore.Get app.env N w).1 = .ok (some r0) := by
    simp [cache.ImageStore.Get, redis.Get, hfault, hentry, hne, hunm]
  rw [this]

/-- The entry a key reads now is the entry it reads later, as long as that
entry has not expired. -/
theorem find_live_later (l : List cache.Entry) (key : String) (now dt : Nat)
    (entry : cache.Entry)
    (h : l.find? (fun e => e.key == key && decide (now < e.expiresAt)) = some entry)
    (hlt : now + dt < entry.expiresAt) :
    l.find? (fun e => e.key == key && decide (now + dt < e.expiresAt)) = some entry := by
  induction l with
  | nil => simp at h
  | cons e t ih =>
    rw [List.find?_cons] at h ⊢
    by_cases hp : (e.key == key && decide (now < e.expiresAt)) = true
    · rw [hp] at h
      simp only [Option.some.injEq] at h
      subst h
      simp only [Bool.and_eq_true, decide_eq_true_eq] at hp
      simp [hp.1, hlt]
    · have hp2 : (e.key == key && decide (now + dt < e.expiresAt)) = false := by
        simp only [Bool.and_eq_true, decide_eq_true_eq, not_and] at hp
        by_cases hk : (e.key == key) = true
        · have := hp hk
          simp only [Bool.and_eq_false_imp, decide_eq_false_iff_not]
          intro _
          omega
        · simp [hk]
      simp only [Bool.not_eq_true] at hp
      rw [hp] at h
      rw [hp2]
      exact ih h

/-- A replace that returns no error logs one bucket call and changes the
bucket only. -/
theorem UpdateImage_returned_none (filename : String) (buf : Bytes) (w w3 : World)
    (h : supabase.ImageBucket.UpdateImage filename buf w = (.returned none, w3)) :
    ∃ ct, w3 = { w with
      log := w.log ++ [Call.bucketUpdateFile filename buf ct]
      blobs := (filename, buf) :: w.blobs.filter (fun b => b.1 != filename) } := by
  unfold supabase.ImageBucket.UpdateImage at h
  split at h
  · cases h
  · rename_i ext _
    simp only at h
    split at h
    · cases h
    · rename_i ct hct
      unfold supabase.UpdateFile at h
      cases hf : w.bucketFault with
      | some e => simp [hf] at h
      | none =>
        simp only [hf, World.record, Prod.mk.injEq, true_and] at h
        exact ⟨ct, h.symm⟩

/-- An update that returns no error logs one call and rewrites the rows of the
image id, of which there is at least one. -/
theorem Update_returned_none (image : store.Image) (w w4 : World)
    (h : store.ImageStore.Update image w = (none, w4)) :
    w4 = { w with
      log := w.log ++ [Call.dbUpdate image]
      rows := w.rows.map (fun i =>
        if i.ID == image.ID then
          { i with URL := image.URL, Filename := image.Filename, UpdatedAt := image.UpdatedAt }
        else i) } ∧
    ∃ i ∈ w.rows, i.ID = image.ID := by
  unfold store.ImageStore.Update at h
  cases hf : w.dbFault with
  | some e => simp [hf] at h
  | none =>
    simp only [hf] at h
    split_ifs at h with hany
    · simp only [World.record, Prod.mk.injEq, true_and, hf] at h
      refine ⟨h.symm, ?_⟩
      simpa using hany
    · simp at h

/-- C17: with caching enabled and a live, readable cache entry for `N` that
holds the record `r0`, a transform request for `N` that ends with the JSON
response leaves the cache store as it was: the only cache call it logs is the
read of the resolver, no set and no delete.  The response and the rows of the
image id carry the new `UpdatedAt`, and a resolve of `N` at any later time
before the entry expires still returns `r0`, the record from before the
transform. -/
theorem transform_leaves_cache_entry (app : application) (r : Request) (w : World) (N : Int)
    (entry : cache.Entry) (r0 img : store.Image)
    (hen : app.redisEnabled = true) (hid : r.imageID = .ok N)
    (hfault : w.redisGetFault = none)
    (hentry : w.redis.find?
      (fun e => e.key == cache.cacheKey N && decide (w.now < e.expiresAt)) = some entry)
    (hne : entry.value ≠ "") (hunm : app.env.jsonUnmarshal entry.value = .ok r0)
    (hsucc : (app.transformImageHandler r w).1 = [Response.jsonResponse 200 img]) :
    (app.transformImageHandler r w).2.redis = w.redis ∧
    (∀ c ∈ (app.transformImageHandler r w).2.log.drop w.log.length,
      c.isCache = true → c = Call.cacheGet (cache.cacheKey N)) ∧
    img = { r0 with UpdatedAt := app.env.formatRFC3339 w.now } ∧
    (∃ i ∈ (app.transformImageHandler r w).2.rows, i.ID = r0.ID) ∧
    (∀ i ∈ (app.transformImageHandler r w).2.rows, i.ID = r0.ID →
      i.UpdatedAt = app.env.formatRFC3339 w.now) ∧
    (∀ dt, w.now + dt < entry.expiresAt →
      (app.getImage N ((app.transformImageHandler r w).2.advance dt)).1 = .ok r0) := by
  have hget := getImage_hit app N w entry r0 hen hfault hentry hne hunm
  have hpath : ∃ buf payload, r0.UserID = r.user.ID ∧
      (supabase.ImageBucket.StreamImage r0.Filename (app.getImage N w).2).1 = .ok buf ∧
      r.payload = .ok payload ∧ r.validateErr = none := by
    have h := hsucc
    unfold application.transformImageHandler at h
    simp only [hid, hget] at h
    split_ifs at h with hown
    · cases h
    · rw [hget]
      rcases hst : supabase.ImageBucket.StreamImage r0.Filename
        (w.record (Call.cacheGet (cache.cacheKey N))) with ⟨res2, w2⟩
      rw [hst] at h
      rcases res2 with err | buf
      · cases h
      · rcases hp : r.payload with err | payload
        · rw [hp] at h; cases h
        · rcases hv : r.validateErr with _ | err
          · exact ⟨buf, payload, not_not.mp hown, rfl, rfl, rfl⟩
          · rw [hp, hv] at h; cases h
  obtain ⟨buf, payload, hown, hbuf, hpay, hval⟩ := hpath
  have hrun := transformImageHandler_at_Process app r w N r0 buf payload hid
    (by rw [hget]) hown hbuf hpay hval
  rw [hget] at hrun
  rw [hrun] at hsucc ⊢
  simp only at hsucc ⊢
  rcases hP : (processor.ImageTransformer.Process app.engine
    { buf := buf, options := application.toOptions payload }).1 with err | newBuf
  · rw [hP] at hsucc
    cases hsucc
  · rw [hP] at hsucc
    simp only at hsucc ⊢
    rcases hup : supabase.ImageBucket.UpdateImage r0.Filename newBuf
      ((w.record (Call.cacheGet (cache.cacheKey N))).record
        (Call.bucketDownloadFile r0.Filename)) with ⟨res3, w3⟩
    rw [hup] at hsucc
    rcases res3 with (_ | err) | msg
    · obtain ⟨ct, hw3⟩ := UpdateImage_returned_none _ _ _ _ hup
      simp only at hsucc ⊢
      rcases hdb : store.ImageStore.Update
        { r0 with UpdatedAt := app.env.formatRFC3339 w3.now } w3 with ⟨res4, w4⟩
      rw [hdb] at hsucc
      rcases res4 with _ | err
      · obtain ⟨hw4, i0, hi0, hi0id⟩ := Update_returned_none _ _ _ hdb
        have hnow : w3.now = w.now := by rw [hw3]; rfl
        simp only at hsucc ⊢
        have himg : img = { r0 with UpdatedAt := app.env.formatRFC3339 w.now } := by
          rcases hwr : r.writeErr with _ | err
          · rw [hwr] at hsucc
            simp only [List.cons.injEq, Response.jsonResponse.injEq, true_and, and_true] at hsucc
            rw [← hsucc, hnow]
          · rw [hwr] at hsucc
            simp at hsucc
        have hfin : (match r.writeErr with
            | some err =>
              ([Response.jsonResponse 200 { r0 with UpdatedAt := app.env.formatRFC3339 w3.now },
                Response.internalServerError err], w4)
            | none =>
              ([Response.jsonResponse 200 { r0 with UpdatedAt := app.env.formatRFC3339 w3.now }],
                w4)).2 = w4 := by
          cases r.writeErr <;> rfl
        rw [hfin]
        have hredis : w4.redis = w.redis := by rw [hw4, hw3]; rfl
        have hnow4 : w4.now = w.now := by rw [hw4, hw3]; rfl
        have hfault4 : w4.redisGetFault = none := by rw [hw4, hw3]; exact hfault
        have hlog : w4.log = w.log ++ [Call.cacheGet (cache.cacheKey N),
            Call.bucketDownloadFile r0.Filename, Call.bucketUpdateFile r0.Filename newBuf ct,
            Call.dbUpdate { r0 with UpdatedAt := app.env.formatRFC3339 w.now }] := by
          rw [hw4, hw3]
          simp [World.record]
        have hrows : w4.rows = w.rows.map (fun i =>
            if i.ID == r0.ID then
              { i with URL := r0.URL, Filename := r0.Filename,
                       UpdatedAt := app.env.formatRFC3339 w.now }
            else i) := by
          rw [hw4, hnow, hw3]; rfl
        have hi0w : i0 ∈ w.rows := by
          rw [hw3] at hi0; exact hi0
        refine ⟨hredis, ?_, himg, ?_, ?_, ?_⟩
        · intro c hc hcache
          rw [hlog, List.drop_left] at hc
          simp only [List.mem_cons, List.mem_singleton, List.not_mem_nil, or_false] at hc
          rcases hc with rfl | rfl | rfl | rfl
          · rfl
          · simp [Call.isCache] at hcache
          · simp [Call.isCache] at hcache
          · simp [Call.isCache] at hcache
        · rw [hrows]
          refine ⟨_, List.mem_map.mpr ⟨i0, hi0w, rfl⟩, ?_⟩
          simp only at hi0id
          simp [hi0id]
        · intro i hi hid2
          rw [hrows] at hi
          obtain ⟨j, -, rfl⟩ := List.mem_map.mp hi
          by_cases hj : j.ID = r0.ID
          · simp [hj]
          · simp only [beq_iff_eq, hj, if_false] at hid2
        · intro dt hdt
          have hfind : (w4.advance dt).redis.find?
              (fun e => e.key == cache.cacheKey N
                && decide ((w4.advance dt).now < e.expiresAt)) = some entry := by
            have := find_live_later w.redis (cache.cacheKey N) w.now dt entry hentry hdt
            simpa [World.advance, hredis, hnow4] using this
          rw [getImage_hit app N (w4.advance dt) entry r0 hen
            (by simpa [World.advance] using hfault4) hfind hne hunm]
      · cases hsucc
    · cases hsucc
    · cases hsucc

/-- C17 on the sample world with image 5 cached: the owner rotates image 5;
the cache is unchanged and a resolve one microsecond later returns the cached
record with its old `UpdatedAt`, while the response carries the new one. -/
theorem transform_leaves_cache_entry_witness :
    (demo.appCached.transformImageHandler demo.requestA demo.warmWorld).2.redis
      = demo.warmWorld.redis ∧
    (demo.appCached.getImage 5
      ((demo.appCached.transformImageHandler demo.requestA demo.warmWorld).2.advance 1000)).1
      = .ok demo.image5 ∧
    (demo.appCached.transformImageHandler demo.requestA demo.warmWorld).1
      = [Response.jsonResponse 200 { demo.image5 with UpdatedAt := "t0" }] :=
  have h := transform_leaves_cache_entry demo.appCached demo.requestA demo.warmWorld 5
    { key := "image-5", value := demo.render demo.image5, expiresAt := 900000000000 }
    demo.image5 { demo.image5 with UpdatedAt := "t0" } rfl rfl rfl rfl (by decide) rfl rfl
  ⟨h.1, h.2.2.2.2.2 1000 (by decide), rfl⟩
